import Mathlib

/-!
Verification of the agentic-platform-mcp pipeline.

This file gives a shallow embedding of the repository's orchestration
pipeline (src/graph/langgraph_agent.py), its helpers
(src/host/summarizer.py, src/host/llm_client.py, src/host/planner.py,
src/host/multi_mcp_host.py, src/host/tool_schemas.py) and the example
policy-kb server (services/mcp-policy-kb/src/server.py), and proves the
specification claims about them.

Python dictionaries / parsed JSON values are embedded as the inductive
type Json; Python exceptions are embedded as Except; the graph state
dict becomes an explicit AgentState record threaded through node
functions.
-/

set_option maxRecDepth 8000

namespace AgenticPlatform

/-- A JSON value as produced by Python's json module (dicts keep insertion
order, so objects are association lists). Numbers are restricted to
integers, which covers every value this code base manipulates. -/
inductive Json where
  | null : Json
  | bool (b : Bool) : Json
  | num (n : Int) : Json
  | str (s : String) : Json
  | arr (items : List Json) : Json
  | obj (fields : List (String × Json)) : Json
  deriving Repr

mutual

/-- Decidable equality on Json values (hand-rolled: the nested inductive
defeats the deriving handler). -/
def Json.decEq : (a b : Json) → Decidable (a = b)
  | .null, .null => .isTrue rfl
  | .bool a, .bool b =>
    if h : a = b then .isTrue (congrArg Json.bool h)
    else .isFalse (fun hh => h (Json.bool.inj hh))
  | .num a, .num b =>
    if h : a = b then .isTrue (congrArg Json.num h)
    else .isFalse (fun hh => h (Json.num.inj hh))
  | .str a, .str b =>
    if h : a = b then .isTrue (congrArg Json.str h)
    else .isFalse (fun hh => h (Json.str.inj hh))
  | .arr xs, .arr ys =>
    match Json.decEqList xs ys with
    | .isTrue h => .isTrue (congrArg Json.arr h)
    | .isFalse h => .isFalse (fun hh => h (Json.arr.inj hh))
  | .obj xs, .obj ys =>
    match Json.decEqFields xs ys with
    | .isTrue h => .isTrue (congrArg Json.obj h)
    | .isFalse h => .isFalse (fun hh => h (Json.obj.inj hh))
  | .null, .bool _ => .isFalse (fun h => Json.noConfusion h)
  | .null, .num _ => .isFalse (fun h => Json.noConfusion h)
  | .null, .str _ => .isFalse (fun h => Json.noConfusion h)
  | .null, .arr _ => .isFalse (fun h => Json.noConfusion h)
  | .null, .obj _ => .isFalse (fun h => Json.noConfusion h)
  | .bool _, .null => .isFalse (fun h => Json.noConfusion h)
  | .bool _, .num _ => .isFalse (fun h => Json.noConfusion h)
  | .bool _, .str _ => .isFalse (fun h => Json.noConfusion h)
  | .bool _, .arr _ => .isFalse (fun h => Json.noConfusion h)
  | .bool _, .obj _ => .isFalse (fun h => Json.noConfusion h)
  | .num _, .null => .isFalse (fun h => Json.noConfusion h)
  | .num _, .bool _ => .isFalse (fun h => Json.noConfusion h)
  | .num _, .str _ => .isFalse (fun h => Json.noConfusion h)
  | .num _, .arr _ => .isFalse (fun h => Json.noConfusion h)
  | .num _, .obj _ => .isFalse (fun h => Json.noConfusion h)
  | .str _, .null => .isFalse (fun h => Json.noConfusion h)
  | .str _, .bool _ => .isFalse (fun h => Json.noConfusion h)
  | .str _, .num _ => .isFalse (fun h => Json.noConfusion h)
  | .str _, .arr _ => .isFalse (fun h => Json.noConfusion h)
  | .str _, .obj _ => .isFalse (fun h => Json.noConfusion h)
  | .arr _, .null => .isFalse (fun h => Json.noConfusion h)
  | .arr _, .bool _ => .isFalse (fun h => Json.noConfusion h)
  | .arr _, .num _ => .isFalse (fun h => Json.noConfusion h)
  | .arr _, .str _ => .isFalse (fun h => Json.noConfusion h)
  | .arr _, .obj _ => .isFalse (fun h => Json.noConfusion h)
  | .obj _, .null => .isFalse (fun h => Json.noConfusion h)
  | .obj _, .bool _ => .isFalse (fun h => Json.noConfusion h)
  | .obj _, .num _ => .isFalse (fun h => Json.noConfusion h)
  | .obj _, .str _ => .isFalse (fun h => Json.noConfusion h)
  | .obj _, .arr _ => .isFalse (fun h => Json.noConfusion h)

/-- Decidable equality on lists of Json values. -/
def Json.decEqList : (xs ys : List Json) → Decidable (xs = ys)
  | [], [] => .isTrue rfl
  | [], _ :: _ => .isFalse (fun h => List.noConfusion h)
  | _ :: _, [] => .isFalse (fun h => List.noConfusion h)
  | x :: xs, y :: ys =>
    match Json.decEq x y with
    | .isTrue hx =>
      match Json.decEqList xs ys with
      | .isTrue ht => .isTrue (by rw [hx, ht])
      | .isFalse ht => .isFalse (fun h => ht (List.cons.inj h).2)
    | .isFalse hx => .isFalse (fun h => hx (List.cons.inj h).1)

/-- Decidable equality on Json object field lists. -/
def Json.decEqFields : (xs ys : List (String × Json)) → Decidable (xs = ys)
  | [], [] => .isTrue rfl
  | [], _ :: _ => .isFalse (fun h => List.noConfusion h)
  | _ :: _, [] => .isFalse (fun h => List.noConfusion h)
  | (k1, v1) :: xs, (k2, v2) :: ys =>
    if hk : k1 = k2 then
      match Json.decEq v1 v2 with
      | .isTrue hv =>
        match Json.decEqFields xs ys with
        | .isTrue ht => .isTrue (by rw [hk, hv, ht])
        | .isFalse ht => .isFalse (fun h => ht (List.cons.inj h).2)
      | .isFalse hv =>
        .isFalse (fun h => hv (congrArg Prod.snd (List.cons.inj h).1))
    else .isFalse (fun h => hk (congrArg Prod.fst (List.cons.inj h).1))

end

instance : DecidableEq Json := Json.decEq

instance : BEq Json := instBEqOfDecidableEq

instance {ε α : Type} [DecidableEq ε] [DecidableEq α] :
    DecidableEq (Except ε α) := fun a b =>
  match a, b with
  | .ok x, .ok y =>
    if h : x = y then .isTrue (congrArg Except.ok h)
    else .isFalse (fun hh => h (Except.ok.inj hh))
  | .error x, .error y =>
    if h : x = y then .isTrue (congrArg Except.error h)
    else .isFalse (fun hh => h (Except.error.inj hh))
  | .ok _, .error _ => .isFalse (fun h => Except.noConfusion h)
  | .error _, .ok _ => .isFalse (fun h => Except.noConfusion h)

/-- Python dict membership test for a key. -/
def Json.hasKey : Json → String → Bool
  | Json.obj fields, k => fields.any (fun kv => kv.1 == k)
  | _, _ => false

/-- Python dict.get(k): None when the key is absent or the value is not a
dict. -/
def Json.get : Json → String → Option Json
  | Json.obj fields, k => (fields.find? (fun kv => kv.1 == k)).map (·.2)
  | _, _ => none

/-- Whether the value is a Python dict (isinstance(x, dict)). -/
def Json.isObj : Json → Bool
  | Json.obj _ => true
  | _ => false

/-- Whether the value is a Python list (isinstance(x, list)). -/
def Json.isArr : Json → Bool
  | Json.arr _ => true
  | _ => false

/-- Python whitespace characters stripped by str.strip(). -/
def pyIsSpace (c : Char) : Bool :=
  c = ' ' || c = '\t' || c = '\n' || c = '\r' || c = '\x0b' || c = '\x0c'

/-- Python str.strip(): remove leading and trailing whitespace. -/
def pyStrip (s : String) : String :=
  String.mk (((s.toList.dropWhile pyIsSpace).reverse.dropWhile pyIsSpace).reverse)

/-- Python str.strip() truthiness: non-empty after stripping, i.e. the
string contains some non-whitespace character. -/
def pyStripNonempty (s : String) : Bool :=
  s.toList.any (fun c => !(pyIsSpace c))

/-- A regex word character (\w over the ASCII range): letters, digits,
underscore. -/
def isWordChar (c : Char) : Bool :=
  c.isAlpha || c.isDigit || c = '_'

/-- Case-insensitive literal match: pattern (given in lowercase) against
the front of the input, returning the matched original characters and the
rest. -/
def matchCaseless : List Char → List Char → Option (List Char × List Char)
  | [], cs => some ([], cs)
  | _ :: _, [] => none
  | p :: ps, c :: cs =>
    if c.toLower = p then
      (matchCaseless ps cs).map (fun r => (c :: r.1, r.2))
    else none

/-- Match, at the current position, a case-insensitive literal followed by
one or more digits followed by a word boundary — the body of the
identifier regexes in _deterministic_plan_from_ids. -/
def matchIdAt (lit : List Char) (cs : List Char) : Option (List Char) :=
  match matchCaseless lit cs with
  | none => none
  | some (m, rest) =>
    let ds := rest.takeWhile Char.isDigit
    let rest2 := rest.dropWhile Char.isDigit
    if ds.isEmpty then none
    else
      match rest2 with
      | [] => some (m ++ ds)
      | c :: _ => if isWordChar c then none else some (m ++ ds)

/-- Leftmost search for a word-boundary-delimited identifier: at each
position whose preceding character is not a word character, try the
alternatives in order (re.search semantics for the patterns used here). -/
def searchIdAux (lits : List (List Char)) : Bool → List Char → Option (List Char)
  | _, [] => none
  | prevOk, c :: cs =>
    match (if prevOk then lits.findSome? (fun lit => matchIdAt lit (c :: cs)) else none) with
    | some m => some m
    | none => searchIdAux lits (!(isWordChar c)) cs

/-- re.search for one of the identifier families, returning the captured
identifier (original capitalization preserved). -/
def searchId (lits : List (List Char)) (s : String) : Option String :=
  (searchIdAux lits true s.toList).map (fun m => String.mk m)

/-- Literal head of the SharePoint doc-id pattern sp-\d+ . -/
def spLit : List Char := ['s', 'p', '-']

/-- Literal head of the policy-id pattern policy-\d+ . -/
def polLit : List Char := ['p', 'o', 'l', 'i', 'c', 'y', '-']

/-- Alternatives of the ticket-id pattern (INC|RITM|TASK|CHG)\d+ . -/
def snLits : List (List Char) :=
  [['i', 'n', 'c'], ['r', 'i', 't', 'm'], ['t', 'a', 's', 'k'], ['c', 'h', 'g']]

/-- src/graph/langgraph_agent.py _deterministic_plan_from_ids: if the query
contains a concrete ID, deterministically pick the corresponding fetch
tool plan; SharePoint doc ids first, then policy ids, then ticket ids. -/
def deterministic_plan_from_ids (user_query : String) : Option Json :=
  let q := pyStrip user_query
  match searchId [spLit] q with
  | some doc_id =>
    some (Json.obj
      [("type", Json.str "call_tool"),
       ("server", Json.str "mcp-sharepoint"),
       ("tool", Json.str "fetch_sharepoint_doc"),
       ("args", Json.obj [("doc_id", Json.str doc_id)])])
  | none =>
    match searchId [polLit] q with
    | some policy_id =>
      some (Json.obj
        [("type", Json.str "call_tool"),
         ("server", Json.str "mcp-policy-kb"),
         ("tool", Json.str "fetch_policy_entry"),
         ("args", Json.obj [("policy_id", Json.str policy_id)])])
    | none =>
      match searchId snLits q with
      | some ticket_id =>
        some (Json.obj
          [("type", Json.str "call_tool"),
           ("server", Json.str "mcp-servicenow"),
           ("tool", Json.str "get_ticket"),
           ("args", Json.obj [("ticket_id", Json.str ticket_id)])])
      | none => none

/-- Python substring test on character lists: needle occurs contiguously in
hay. -/
def inCharList (needle : List Char) : List Char → Bool
  | [] => needle.isEmpty
  | c :: rest => needle.isPrefixOf (c :: rest) || inCharList needle rest

/-- Python `needle in hay` on strings. -/
def pyInStr (needle hay : String) : Bool :=
  inCharList needle.toList hay.toList

/-- The three summary sections checked by validate_grounded_summary, in
source order. -/
def groundingSections : List String := ["bullets", "risks", "recommendations"]

/-- src/host/summarizer.py validate_grounded_summary, per-item checks: the
item must be a dict, claim and evidence must be strings that are non-empty
after stripping, and evidence must be a substring of the source text.
Errors carry the GroundingError message. -/
def checkGroundedItem (src sec : String) (i : Nat) (item : Json) :
    Except String Unit :=
  if !item.isObj then
    .error (sec ++ "[" ++ toString i ++ "] must be an object.")
  else if !(match item.get "claim" with
            | some (Json.str s) => pyStripNonempty s
            | _ => false) then
    .error (sec ++ "[" ++ toString i ++ "].claim must be a non-empty string.")
  else
    match item.get "evidence" with
    | some (Json.str ev) =>
      if !(pyStripNonempty ev) then
        .error (sec ++ "[" ++ toString i ++ "].evidence must be a non-empty string.")
      else if !(pyInStr ev src) then
        .error (sec ++ "[" ++ toString i ++ "] evidence not found verbatim in SOURCE.")
      else .ok ()
    | _ => .error (sec ++ "[" ++ toString i ++ "].evidence must be a non-empty string.")

/-- The enumerate loop over one section's items, erroring at the first
violating item. -/
def checkGroundedItems (src sec : String) : Nat → List Json → Except String Unit
  | _, [] => .ok ()
  | i, item :: rest =>
    match checkGroundedItem src sec i item with
    | .ok _ => checkGroundedItems src sec (i + 1) rest
    | .error e => .error e

/-- One section of validate_grounded_summary: the section value must be a
list, and every item must pass the item checks. -/
def checkGroundedSection (summary : Json) (src sec : String) : Except String Unit :=
  match summary.get sec with
  | some (Json.arr items) => checkGroundedItems src sec 0 items
  | _ => .error (sec ++ " must be a list.")

/-- src/host/summarizer.py validate_grounded_summary: raises GroundingError
(modelled as Except.error with its message) on the first violated rule,
returns unit on acceptance. -/
def validate_grounded_summary (summary : Json) (source_text : String) :
    Except String Unit :=
  if !summary.isObj then .error "Summary must be a JSON object."
  else if summary.get "type" ≠ some (Json.str "summary") then
    .error "Summary.type must be \x27summary\x27."
  else
    match checkGroundedSection summary source_text "bullets" with
    | .error e => .error e
    | .ok _ =>
      match checkGroundedSection summary source_text "risks" with
      | .error e => .error e
      | .ok _ => checkGroundedSection summary source_text "recommendations"

/-- Python truthiness of a JSON value (bool(x) for the types json produces). -/
def Json.pyTruthy : Json → Bool
  | .null => false
  | .bool b => b
  | .num n => n != 0
  | .str s => !s.isEmpty
  | .arr xs => !xs.isEmpty
  | .obj fs => !fs.isEmpty

/-- Python dict assignment d[k] = v: replace in place when the key exists,
append otherwise (insertion order preserved). -/
def objInsert (fields : List (String × Json)) (k : String) (v : Json) :
    List (String × Json) :=
  if fields.any (fun kv => kv.1 == k) then
    fields.map (fun kv => if kv.1 == k then (k, v) else kv)
  else fields ++ [(k, v)]

/-- d[k] = v on a Json object (pipeline outputs are always dicts where this
is used). -/
def Json.setKey : Json → String → Json → Json
  | .obj fields, k, v => .obj (objInsert fields k v)
  | j, _, _ => j

/-- JSON whitespace accepted between tokens by json.loads. -/
def jsonSkipWs : List Char → List Char
  | c :: cs =>
    if c = ' ' || c = '\t' || c = '\n' || c = '\r' then jsonSkipWs cs else c :: cs
  | [] => []

/-- Value of a hexadecimal digit. -/
def hexVal (c : Char) : Option Nat :=
  if c.isDigit then some (c.toNat - 48)
  else if 'a' ≤ c && c ≤ 'f' then some (c.toNat - 87)
  else if 'A' ≤ c && c ≤ 'F' then some (c.toNat - 55)
  else none

/-- Parse the body of a JSON string literal (opening quote already
consumed), handling the escape sequences json.loads accepts. -/
def parseJsonStringAux : List Char → List Char → Option (String × List Char)
  | acc, c :: rest =>
    if c = '\x22' then some (String.mk acc.reverse, rest)
    else if c = '\\' then
      match rest with
      | e :: rest2 =>
        if e = '\x22' then parseJsonStringAux ('\x22' :: acc) rest2
        else if e = '\\' then parseJsonStringAux ('\\' :: acc) rest2
        else if e = '/' then parseJsonStringAux ('/' :: acc) rest2
        else if e = 'b' then parseJsonStringAux ('\x08' :: acc) rest2
        else if e = 'f' then parseJsonStringAux ('\x0c' :: acc) rest2
        else if e = 'n' then parseJsonStringAux ('\n' :: acc) rest2
        else if e = 'r' then parseJsonStringAux ('\r' :: acc) rest2
        else if e = 't' then parseJsonStringAux ('\t' :: acc) rest2
        else if e = 'u' then
          match rest2 with
          | h1 :: h2 :: h3 :: h4 :: rest3 =>
            match hexVal h1, hexVal h2, hexVal h3, hexVal h4 with
            | some a, some b, some c2, some d =>
              parseJsonStringAux
                (Char.ofNat (((a * 16 + b) * 16 + c2) * 16 + d) :: acc) rest3
            | _, _, _, _ => none
          | _ => none
        else none
      | [] => none
    else if c.toNat < 32 then none
    else parseJsonStringAux (c :: acc) rest
  | _, [] => none

/-- Parse a JSON number starting at the current character. Only integers
are modelled (no value in this code base is fractional); a fractional or
exponent part makes the parse fail. -/
def parseJsonNumber (cs : List Char) : Option (Json × List Char) :=
  let sign : Bool := cs.head? = some '-'
  let cs1 := if sign then cs.drop 1 else cs
  let digits := cs1.takeWhile Char.isDigit
  let rest := cs1.dropWhile Char.isDigit
  if digits.isEmpty then none
  else if digits.length > 1 && digits.head? = some '0' then none
  else
    match rest.head? with
    | some c => if c = '.' || c = 'e' || c = 'E' then none else
        some (mkNum sign digits, rest)
    | none => some (mkNum sign digits, rest)
where
  mkNum (sign : Bool) (digits : List Char) : Json :=
    let n : Nat := digits.foldl (fun acc c => acc * 10 + (c.toNat - 48)) 0
    Json.num (if sign then -(n : Int) else (n : Int))

mutual

/-- json.loads value parser (fuel-indexed recursive descent). -/
def parseJsonValue : Nat → List Char → Option (Json × List Char)
  | 0, _ => none
  | fuel + 1, cs =>
    match jsonSkipWs cs with
    | [] => none
    | c :: rest =>
      if c = 'n' then
        match rest with
        | 'u' :: 'l' :: 'l' :: rest2 => some (Json.null, rest2)
        | _ => none
      else if c = 't' then
        match rest with
        | 'r' :: 'u' :: 'e' :: rest2 => some (Json.bool true, rest2)
        | _ => none
      else if c = 'f' then
        match rest with
        | 'a' :: 'l' :: 's' :: 'e' :: rest2 => some (Json.bool false, rest2)
        | _ => none
      else if c = '\x22' then
        (parseJsonStringAux [] rest).map (fun r => (Json.str r.1, r.2))
      else if c = '\x7b' then
        match jsonSkipWs rest with
        | '\x7d' :: rest2 => some (Json.obj [], rest2)
        | rest2 => parseJsonMembers fuel [] rest2
      else if c = '[' then
        match jsonSkipWs rest with
        | ']' :: rest2 => some (Json.arr [], rest2)
        | rest2 => parseJsonItems fuel [] rest2
      else parseJsonNumber (c :: rest)

/-- Members of a JSON object after the opening brace (and not immediately
closed); Python keeps the last value for a duplicated key. -/
def parseJsonMembers : Nat → List (String × Json) → List Char →
    Option (Json × List Char)
  | 0, _, _ => none
  | fuel + 1, acc, cs =>
    match jsonSkipWs cs with
    | '\x22' :: rest =>
      match parseJsonStringAux [] rest with
      | none => none
      | some (key, rest2) =>
        match jsonSkipWs rest2 with
        | ':' :: rest3 =>
          match parseJsonValue fuel rest3 with
          | none => none
          | some (v, rest4) =>
            let acc2 := objInsert acc key v
            match jsonSkipWs rest4 with
            | ',' :: rest5 => parseJsonMembers fuel acc2 rest5
            | '\x7d' :: rest5 => some (Json.obj acc2, rest5)
            | _ => none
        | _ => none
    | _ => none

/-- Items of a JSON array after the opening bracket (and not immediately
closed). -/
def parseJsonItems : Nat → List Json → List Char → Option (Json × List Char)
  | 0, _, _ => none
  | fuel + 1, acc, cs =>
    match parseJsonValue fuel cs with
    | none => none
    | some (v, rest) =>
      match jsonSkipWs rest with
      | ',' :: rest2 => parseJsonItems fuel (acc ++ [v]) rest2
      | ']' :: rest2 => some (Json.arr (acc ++ [v]), rest2)
      | _ => none

end

/-- Python json.loads: parse one JSON document, requiring only whitespace
after it. -/
def pyJsonLoads (s : String) : Option Json :=
  match parseJsonValue (s.length + 2) s.toList with
  | some (j, rest) => if jsonSkipWs rest = [] then some j else none
  | none => none

/-- Hexadecimal digit for escape output. -/
def hexDigit (n : Nat) : Char :=
  if n < 10 then Char.ofNat (48 + n) else Char.ofNat (87 + n)

/-- How json.dumps with ensure_ascii=False renders one character inside a
string literal. -/
def jsonEscapeChar (c : Char) : List Char :=
  if c = '\x22' then ['\\', '\x22']
  else if c = '\\' then ['\\', '\\']
  else if c = '\n' then ['\\', 'n']
  else if c = '\t' then ['\\', 't']
  else if c = '\r' then ['\\', 'r']
  else if c = '\x08' then ['\\', 'b']
  else if c = '\x0c' then ['\\', 'f']
  else if c.toNat < 32 then
    ['\\', 'u', '0', '0', hexDigit (c.toNat / 16), hexDigit (c.toNat % 16)]
  else [c]

/-- A JSON string literal as json.dumps renders it. -/
def jsonEscapeString (s : String) : List Char :=
  '\x22' :: s.toList.flatMap jsonEscapeChar ++ ['\x22']

/-- Indentation characters at a given level. -/
def indentChars (n : Nat) : List Char := List.replicate n ' '

mutual

/-- json.dumps(value, ensure_ascii=False, indent=2) rendering of a value
whose enclosing line is indented by ind spaces. -/
def dumpsValue : Nat → Json → List Char
  | _, Json.null => ['n', 'u', 'l', 'l']
  | _, Json.bool true => ['t', 'r', 'u', 'e']
  | _, Json.bool false => ['f', 'a', 'l', 's', 'e']
  | _, Json.num n => (toString n).toList
  | _, Json.str s => jsonEscapeString s
  | _, Json.arr [] => ['[', ']']
  | ind, Json.arr (x :: xs) =>
    '[' :: '\n' :: indentChars (ind + 2) ++ dumpsValue (ind + 2) x ++
      dumpsItems (ind + 2) xs ++ '\n' :: indentChars ind ++ [']']
  | _, Json.obj [] => ['\x7b', '\x7d']
  | ind, Json.obj (f :: fs) =>
    '\x7b' :: '\n' :: indentChars (ind + 2) ++ jsonEscapeString f.1 ++
      ':' :: ' ' :: dumpsValue (ind + 2) f.2 ++ dumpsFields (ind + 2) fs ++
      '\n' :: indentChars ind ++ ['\x7d']

/-- Remaining array items, each on its own indented line after a comma. -/
def dumpsItems : Nat → List Json → List Char
  | _, [] => []
  | ind, x :: xs =>
    ',' :: '\n' :: indentChars ind ++ dumpsValue ind x ++ dumpsItems ind xs

/-- Remaining object fields, each on its own indented line after a comma. -/
def dumpsFields : Nat → List (String × Json) → List Char
  | _, [] => []
  | ind, f :: fs =>
    ',' :: '\n' :: indentChars ind ++ jsonEscapeString f.1 ++ ':' :: ' ' ::
      dumpsValue ind f.2 ++ dumpsFields ind fs

end

/-- json.dumps(x, ensure_ascii=False, indent=2) as used for the summarizer
source text. -/
def pyJsonDumps (j : Json) : String :=
  String.mk (dumpsValue 0 j)

/-- src/host/summarizer.py _to_source_text: serialize the typed result and
truncate with a marker when longer than max_chars (8000 at the call sites
the spec describes; the parameter keeps the source signature). -/
def to_source_text (tool_result : Json) (max_chars : Nat) : String :=
  let src := pyJsonDumps tool_result
  if max_chars < src.length then
    String.mk (src.toList.take max_chars) ++ "\n...[TRUNCATED]..."
  else src

/-- Python repr of a string: single-quoted unless the text contains a
single quote and no double quote, escaping the quote character,
backslashes and control characters. -/
def pyReprStr (s : String) : List Char :=
  let useDouble := s.toList.contains '\x27' && !(s.toList.contains '\x22')
  let q : Char := if useDouble then '\x22' else '\x27'
  q :: s.toList.flatMap (fun c =>
    if c = q then ['\\', q]
    else if c = '\\' then ['\\', '\\']
    else if c = '\n' then ['\\', 'n']
    else if c = '\t' then ['\\', 't']
    else if c = '\r' then ['\\', 'r']
    else if c.toNat < 32 then
      ['\\', 'x', hexDigit (c.toNat / 16), hexDigit (c.toNat % 16)]
    else [c]) ++ [q]

mutual

/-- Python str()/repr() of a parsed-JSON value (dicts and lists render with
repr of their elements). -/
def pyReprValue : Json → List Char
  | Json.null => ['N', 'o', 'n', 'e']
  | Json.bool true => ['T', 'r', 'u', 'e']
  | Json.bool false => ['F', 'a', 'l', 's', 'e']
  | Json.num n => (toString n).toList
  | Json.str s => pyReprStr s
  | Json.arr [] => ['[', ']']
  | Json.arr (x :: xs) => '[' :: pyReprValue x ++ pyReprItems xs ++ [']']
  | Json.obj [] => ['\x7b', '\x7d']
  | Json.obj (f :: fs) =>
    '\x7b' :: pyReprStr f.1 ++ ':' :: ' ' :: pyReprValue f.2 ++
      pyReprFields fs ++ ['\x7d']

/-- Remaining list elements in a Python repr. -/
def pyReprItems : List Json → List Char
  | [] => []
  | x :: xs => ',' :: ' ' :: pyReprValue x ++ pyReprItems xs

/-- Remaining dict entries in a Python repr. -/
def pyReprFields : List (String × Json) → List Char
  | [] => []
  | f :: fs => ',' :: ' ' :: pyReprStr f.1 ++ ':' :: ' ' :: pyReprValue f.2 ++
      pyReprFields fs

end

/-- Python str(x) for the parsed plan values attached to blocked outputs. -/
def pyStr (j : Json) : String :=
  String.mk (pyReprValue j)

/-- Index of the first occurrence of a character (str.find, None for -1). -/
def pyFindChar (cs : List Char) (c : Char) : Option Nat :=
  cs.findIdx? (fun x => x = c)

/-- Index of the last occurrence of a character (str.rfind, None for -1). -/
def pyRfindChar (cs : List Char) (c : Char) : Option Nat :=
  (pyFindChar cs.reverse c).map (fun i => cs.length - 1 - i)

/-- src/host/llm_client.py LLMClient.chat_json response handling: strip the
assistant content and parse it strictly as JSON; on failure, slice from the
first opening brace to the last closing brace and parse that slice; if the
slice is absent or fails to parse, the json.JSONDecodeError propagates
(modelled as Except.error). -/
def chat_json_parse (content0 : String) : Except String Json :=
  let content := pyStrip content0
  match pyJsonLoads content with
  | some j => .ok j
  | none =>
    let cs := content.toList
    match pyFindChar cs '\x7b', pyRfindChar cs '\x7d' with
    | some start, some stop =>
      if start < stop then
        match pyJsonLoads (String.mk ((cs.drop start).take (stop + 1 - start))) with
        | some j => .ok j
        | none => .error "json.JSONDecodeError"
      else .error "json.JSONDecodeError"
    | _, _ => .error "json.JSONDecodeError"

/-- Scan for the closing brace matching the first opening one (depth
counting). -/
def balancedAux : Nat → List Char → List Char → Option (List Char)
  | depth, acc, c :: rest =>
    if c = '\x7b' then balancedAux (depth + 1) (c :: acc) rest
    else if c = '\x7d' then
      if depth = 1 then some (c :: acc).reverse
      else if depth = 0 then none
      else balancedAux (depth - 1) (c :: acc) rest
    else balancedAux depth (c :: acc) rest
  | _, _, [] => none

/-- The first balanced braces substring of the text, as the spec words the
fallback extraction: from the first opening brace to its matching closing
brace. -/
def firstBalancedBraces (s : String) : Option String :=
  match s.toList.dropWhile (fun c => c ≠ '\x7b') with
  | [] => none
  | cs => (balancedAux 0 [] cs).map String.mk

/-- The grounding rules exactly as the claim words them: an item passes if
it is an object whose claim and evidence are non-EMPTY strings and whose
evidence occurs verbatim in the source text. -/
def itemMeetsClaimRules (src : String) (item : Json) : Bool :=
  item.isObj &&
  (match item.get "claim" with
   | some (Json.str s) => !s.isEmpty
   | _ => false) &&
  (match item.get "evidence" with
   | some (Json.str s) => !s.isEmpty && pyInStr s src
   | _ => false)

/-- One section under the claim-as-stated rules: a list whose items all
pass. -/
def sectionMeetsClaimRules (summary : Json) (src sec : String) : Bool :=
  match summary.get sec with
  | some (Json.arr items) => items.all (itemMeetsClaimRules src)
  | _ => false

/-- A summary satisfies every rule of the claim as stated: type field equal
to "summary", each section a list, every item passing itemMeetsClaimRules. -/
def summaryMeetsClaimRules (summary : Json) (src : String) : Bool :=
  (summary.get "type" == some (Json.str "summary")) &&
  groundingSections.all (sectionMeetsClaimRules summary src)

/-- The grounding rules as the code enforces them (amended claim): claim and
evidence strings must be non-empty AFTER stripping whitespace. -/
def itemMeetsGroundingRules (src : String) (item : Json) : Bool :=
  item.isObj &&
  (match item.get "claim" with
   | some (Json.str s) => pyStripNonempty s
   | _ => false) &&
  (match item.get "evidence" with
   | some (Json.str s) => pyStripNonempty s && pyInStr s src
   | _ => false)

/-- One section under the amended rules: a list whose items all pass. -/
def sectionMeetsGroundingRules (summary : Json) (src sec : String) : Bool :=
  match summary.get sec with
  | some (Json.arr items) => items.all (itemMeetsGroundingRules src)
  | _ => false

/-- A summary satisfies every amended rule: it is an object with type field
"summary", each section is a list, every item passes the amended item
rules. -/
def summaryMeetsGroundingRules (summary : Json) (src : String) : Bool :=
  summary.isObj &&
  (summary.get "type" == some (Json.str "summary")) &&
  groundingSections.all (sectionMeetsGroundingRules summary src)

/-- src/host/tool_schemas.py typed output models (their names; the pydantic
field lists live in src/host/typed_models.py). -/
inductive TypedModel where
  | sharePointSearchResult
  | sharePointDoc
  | serviceNowSearchResult
  | serviceNowTicket
  | policyKBSearchResult
  | policyDoc
  deriving Repr, DecidableEq

/-- src/host/tool_schemas.py TOOL_OUTPUT_MODELS: the fixed registry from
(server, tool) pairs to expected output shapes. -/
def TOOL_OUTPUT_MODELS : List ((String × String) × TypedModel) :=
  [(("mcp-sharepoint", "search_sharepoint"), .sharePointSearchResult),
   (("mcp-sharepoint", "fetch_sharepoint_doc"), .sharePointDoc),
   (("mcp-servicenow", "search_servicenow_tickets"), .serviceNowSearchResult),
   (("mcp-servicenow", "get_ticket"), .serviceNowTicket),
   (("mcp-policy-kb", "search_policies"), .policyKBSearchResult),
   (("mcp-policy-kb", "get_policy"), .policyDoc)]

/-- services/mcp-policy-kb/src/server.py POLICIES fixture. -/
def POLICIES : List (String × Json) :=
  [("PII Logging", Json.obj
    [("id", Json.str "policy-001"),
     ("content", Json.str
       "# PII Logging Policy\n- Never log secrets\n- Mask emails and identifiers\n- Hash user identifiers\n")])]

/-- services/mcp-policy-kb/src/server.py get_policy: linear scan of the
fixture by id, NOT_FOUND content when absent. -/
def get_policy (policy_id : String) : Json :=
  match POLICIES.find? (fun kv => kv.2.get "id" == some (Json.str policy_id)) with
  | some kv =>
    Json.obj [("policy_id", Json.str policy_id),
              ("content", (kv.2.get "content").getD Json.null)]
  | none =>
    Json.obj [("policy_id", Json.str policy_id),
              ("content", Json.str "NOT_FOUND")]

/-- Python str.lower over the ASCII range. -/
def pyLower (s : String) : String :=
  String.mk (s.toList.map Char.toLower)

/-- services/mcp-policy-kb/src/server.py search_policies: substring match of
the lowered query against the lowered titles, truncated to top_k. -/
def search_policies (query : String) (top_k : Nat) : Json :=
  let results := POLICIES.filterMap (fun kv =>
    if pyInStr (pyLower query) (pyLower kv.1) then
      some (Json.obj [("policy_id", (kv.2.get "id").getD Json.null),
                      ("title", Json.str kv.1)])
    else none)
  Json.obj [("query", Json.str query), ("results", Json.arr (results.take top_k))]

/-- The tool names the policy-kb server registers (its two mcp.tool
declarations). -/
def policy_kb_tools : List String := ["search_policies", "get_policy"]

/-
Pipeline embedding. The generator backend, the remote servers and the
typed decoder outcome are oracle inputs; everything else follows
src/graph/langgraph_agent.py node by node. The functions
policy_check_user_query, parse_strict_json_plan, enforce_tool_allowlist
(src/host/safety.py), validate_plan (src/host/validator.py) and
parse_typed_tool_output (src/host/typed_parser.py) are imported by the
graph but their modules are not among the sources, so they are modelled
from the spec where marked.
-/

/-- Modelled from the spec: safety.policy_check_user_query
(src/host/safety.py is absent from the sources). §4.1: a pure check of the
query against a configurable denylist, returning (allowed, reason); the
denylist is configuration, so the check is a parameter of the pipeline. -/
abbrev PolicyCheck := String → Bool × String

/-- Modelled from the spec: safety.parse_strict_json_plan
(src/host/safety.py is absent from the sources). §4.3: the generator
response must parse to a JSON object (chat_json already produced the parsed
value, so what remains is requiring an object); otherwise PlanParseError,
modelled as Except.error with the message. -/
def parse_strict_json_plan (raw : Json) : Except String Json :=
  if raw.isObj then .ok raw else .error "planner output is not a JSON object"

/-- Outcome of plan validation: either the FinalAnswer short-circuit or the
selected (server, tool, args) triple. -/
inductive ValidateOutcome where
  | finalAnswer (plan : Json)
  | selected (server tool : String) (args : Json)
  deriving Repr, DecidableEq

/-- Modelled from the spec: validator.validate_plan (src/host/validator.py
is absent from the sources). §4.4, rules in order: (1) a FinalAnswer plan is
terminal output, not an error; (2) the named server must exist in the
catalog; (3) the named capability must exist under that server; (4) the
args must be an object carrying every required key of the capability input
schema. Failures are ValidationError, modelled as Except.error. -/
def validate_plan (plan : Json) (catalog : Json) : Except String ValidateOutcome :=
  match plan.get "type" with
  | some (Json.str "final_answer") => .ok (.finalAnswer plan)
  | some (Json.str "call_tool") =>
    match plan.get "server", plan.get "tool", plan.get "args" with
    | some (Json.str server), some (Json.str tool), some args =>
      match catalog.get server with
      | some (Json.arr tools) =>
        match tools.find? (fun t => t.get "name" == some (Json.str tool)) with
        | some tdesc =>
          let required :=
            match (tdesc.get "inputSchema").bind (fun s => s.get "required") with
            | some (Json.arr ks) => ks
            | _ => []
          if args.isObj && required.all (fun k =>
              match k with
              | Json.str ks => args.hasKey ks
              | _ => true) then
            .ok (.selected server tool args)
          else .error ("args do not satisfy the schema of " ++ tool)
        | none => .error ("unknown tool " ++ tool ++ " on server " ++ server)
      | _ => .error ("unknown server " ++ server)
    | _, _, _ => .error "plan is missing server, tool or args"
  | _ => .error "plan type must be call_tool or final_answer"

/-- Modelled from the spec: safety.enforce_tool_allowlist
(src/host/safety.py is absent from the sources). §4.4: the call is allowed
iff the tool is in the allowlist set of its server; otherwise
ToolNotAllowed, modelled as Except.error. Allowlist values are the raw
name values collected at discovery. -/
def enforce_tool_allowlist (server tool : String)
    (allowlist : List (String × List Json)) : Except String Unit :=
  match allowlist.find? (fun kv => kv.1 == server) with
  | some kv =>
    if kv.2.contains (Json.str tool) then .ok ()
    else .error ("Tool not allowed: " ++ server ++ "." ++ tool)
  | none => .error ("Tool not allowed: " ++ server ++ "." ++ tool)

/-- src/host/multi_mcp_host.py MultiMCPHost.tools_all: one tools/list
outcome per configured server (an oracle input here); a raised exception is
recorded as an error entry for that server instead of propagating. -/
def tools_all (responses : List (String × Except String Json)) :
    List (String × Json) :=
  responses.map (fun kv =>
    match kv.2 with
    | .ok resp => (kv.1, resp)
    | .error e => (kv.1, Json.obj [("error", Json.str e)]))

/-- The allowlist comprehension of node_discover_tools: the names of the
tool entries that are dicts carrying a name. Accessing .get on a non-dict
result value raises (Except.error models the AttributeError); a non-list
tools value is likewise modelled as a raised error. -/
def allowlist_names (resp : Json) : Except String (List Json) :=
  match resp.get "result" with
  | some (Json.obj rf) =>
    match (Json.obj rf).get "tools" with
    | some (Json.arr ts) =>
      .ok (ts.filterMap (fun t =>
        if t.isObj && t.hasKey "name" then t.get "name" else none))
    | none => .ok []
    | some _ => .error "TypeError: tools is not a list"
  | _ => .error "AttributeError: result is not a dict"

/-- One catalog entry of build_tool_catalog: t[name] raises KeyError when
absent (or TypeError when t is not a dict); description and inputSchema
default to empty. -/
def catalog_entry (t : Json) : Except String Json :=
  match t.get "name" with
  | some nm =>
    .ok (Json.obj [("name", nm),
      ("description", (t.get "description").getD (Json.str "")),
      ("inputSchema", (t.get "inputSchema").getD (Json.obj []))])
  | none => .error "KeyError: name"

/-- The tool descriptor list of one server in build_tool_catalog. -/
def catalog_entries : List Json → Except String (List Json)
  | [] => .ok []
  | t :: ts =>
    match catalog_entry t with
    | .error e => .error e
    | .ok entry =>
      match catalog_entries ts with
      | .error e => .error e
      | .ok rest => .ok (entry :: rest)

/-- The catalog value of one server response in build_tool_catalog:
resp.get(result, empty) .get(tools, empty), each descriptor built by
catalog_entry. -/
def server_tools_entry (resp : Json) : Except String Json :=
  match resp with
  | Json.obj _ =>
    match (resp.get "result").getD (Json.obj []) with
    | Json.obj rf =>
      match ((Json.obj rf).get "tools").getD (Json.arr []) with
      | Json.arr ts =>
        match catalog_entries ts with
        | .error e => .error e
        | .ok tools => .ok (Json.arr tools)
      | _ => .error "TypeError: tools is not a list"
    | _ => .error "AttributeError: result is not a dict"
  | _ => .error "AttributeError: response is not a dict"

/-- The per-server loop of build_tool_catalog. -/
def build_tool_catalog_entries : List (String × Json) →
    Except String (List (String × Json))
  | [] => .ok []
  | kv :: rest =>
    match server_tools_entry kv.2 with
    | .error e => .error e
    | .ok toolsJson =>
      match build_tool_catalog_entries rest with
      | .error e => .error e
      | .ok entries => .ok ((kv.1, toolsJson) :: entries)

/-- src/host/planner.py build_tool_catalog: compact catalog keyed by server
name. The source returns this serialized as a JSON string, which
node_discover_tools immediately parses back with json.loads; the
serialization round-trips, so the embedding keeps the object form. -/
def build_tool_catalog (servers_to_tools : List (String × Json)) :
    Except String Json :=
  match build_tool_catalog_entries servers_to_tools with
  | .error e => .error e
  | .ok entries => .ok (Json.obj entries)

/-- The graph state dict (TypedDict AgentState, total=False): absent keys
are None options; the blocked flag is read with .get, so absent and false
coincide. -/
structure AgentState where
  user_query : String
  tools_payload : Option (List (String × Json)) := none
  allowlist : Option (List (String × List Json)) := none
  catalog_dict : Option Json := none
  raw_plan : Option Json := none
  plan : Option Json := none
  server : Option String := none
  tool : Option String := none
  args : Option Json := none
  raw_tool_result : Option Json := none
  typed : Option Json := none
  summary : Option Json := none
  output : Option Json := none
  blocked : Bool := false
  reason : Option String := none
  deriving Repr, DecidableEq

/-- Counters for the external effects a pipeline run performs. -/
structure Effects where
  llmCalls : Nat := 0
  discoverCalls : Nat := 0
  invokeCalls : Nat := 0
  deriving Repr, DecidableEq

/-- No external effect. -/
def noEffects : Effects := {}

/-- Exactly one generator call. -/
def oneLlmCall : Effects := { llmCalls := 1 }

/-- Exactly one discovery fan-out. -/
def oneDiscover : Effects := { discoverCalls := 1 }

/-- Exactly one capability invocation. -/
def oneInvoke : Effects := { invokeCalls := 1 }

/-- Pointwise sum of effect counters. -/
def Effects.add (a b : Effects) : Effects :=
  { llmCalls := a.llmCalls + b.llmCalls,
    discoverCalls := a.discoverCalls + b.discoverCalls,
    invokeCalls := a.invokeCalls + b.invokeCalls }

/-- src/graph/langgraph_agent.py node_policy_gate: mark the state blocked
with the reason and the blocked output when the check rejects. -/
def node_policy_gate (check : PolicyCheck) (st : AgentState) : AgentState :=
  let r := check st.user_query
  if r.1 then st
  else
    { st with
      blocked := true,
      reason := some r.2,
      output := some (Json.obj
        [("type", Json.str "blocked"), ("reason", Json.str r.2)]) }

/-- The allowlist loop of node_discover_tools over the surviving servers. -/
def discover_allowlist : List (String × Json) →
    Except String (List (String × List Json))
  | [] => .ok []
  | kv :: rest =>
    match allowlist_names kv.2 with
    | .error e => .error e
    | .ok names =>
      match discover_allowlist rest with
      | .error e => .error e
      | .ok al => .ok ((kv.1, names) :: al)

/-- src/graph/langgraph_agent.py node_discover_tools: keep the servers whose
response is a dict containing a result, derive the allowlist sets and the
parsed catalog from them. -/
def node_discover_tools (responses : List (String × Except String Json))
    (st : AgentState) : Except String AgentState :=
  let ok_tools := (tools_all responses).filter
    (fun kv => kv.2.isObj && kv.2.hasKey "result")
  match discover_allowlist ok_tools with
  | .error e => .error e
  | .ok allowlist =>
    match build_tool_catalog ok_tools with
    | .error e => .error e
    | .ok catalog =>
      .ok { st with
            tools_payload := some ok_tools,
            allowlist := some allowlist,
            catalog_dict := some catalog }

/-- src/graph/langgraph_agent.py node_plan: blocked states pass through;
the deterministic ID route bypasses the generator entirely; otherwise one
generator call is made whose completion content is the oracle input. A
json.JSONDecodeError raised inside chat_json propagates out of the node
(Except.error); a parsed-but-invalid plan blocks the pipeline with the
truncated str() of the parsed value attached. -/
def node_plan (planContent : String) (st : AgentState) :
    Except String AgentState × Effects :=
  if st.blocked then (.ok st, noEffects)
  else
    match deterministic_plan_from_ids st.user_query with
    | some forced =>
      (.ok { st with
        raw_plan := some (Json.obj [("forced", Json.bool true), ("plan", forced)]),
        plan := some forced }, noEffects)
    | none =>
      match chat_json_parse planContent with
      | .error e => (.error e, oneLlmCall)
      | .ok raw =>
        match parse_strict_json_plan raw with
        | .error e =>
          let reason := "Planner output rejected: " ++ e
          (.ok { st with
            raw_plan := some raw,
            blocked := true,
            reason := some reason,
            output := some (Json.obj
              [("type", Json.str "blocked"),
               ("reason", Json.str reason),
               ("raw", Json.str (String.mk ((pyStr raw).toList.take 400)))]) },
           oneLlmCall)
        | .ok plan =>
          (.ok { st with raw_plan := some raw, plan := some plan },
           oneLlmCall)

/-- src/graph/langgraph_agent.py node_validate_and_select: blocked states
pass through; a ValidationError or ToolNotAllowed blocks with the reason
and the plan attached; a FinalAnswer outcome stores the plan as the output
(spec-modelled short-circuit, §4.4(1)); otherwise the triple is selected. -/
def node_validate_and_select (st : AgentState) : AgentState :=
  if st.blocked then st
  else
    let plan := st.plan.getD Json.null
    let catalog := st.catalog_dict.getD Json.null
    let allowlist := st.allowlist.getD []
    match validate_plan plan catalog with
    | .error e =>
      let reason := "Plan validation failed: " ++ e
      { st with
        blocked := true,
        reason := some reason,
        output := some (Json.obj
          [("type", Json.str "blocked"), ("reason", Json.str reason),
           ("plan", plan)]) }
    | .ok (.finalAnswer p) => { st with output := some p }
    | .ok (.selected server tool args) =>
      match enforce_tool_allowlist server tool allowlist with
      | .error e =>
        { st with
          blocked := true,
          reason := some e,
          output := some (Json.obj
            [("type", Json.str "blocked"), ("reason", Json.str e),
             ("plan", plan)]) }
      | .ok _ =>
        { st with server := some server, tool := some tool, args := some args }

/-- src/graph/langgraph_agent.py node_call_tool: blocked states pass
through; otherwise the capability is invoked once (raw result an oracle
input) and decoded. The decode is performed by
typed_parser.parse_typed_tool_output, whose module is absent from the
sources; modelled from the spec (§4.5): its outcome — typed payload or
TypedParseError — is an oracle input, and a failure degrades to an untyped
passthrough with a note, never a block. -/
def node_call_tool (invokeRaw : Json) (decodeOutcome : Except String Json)
    (st : AgentState) : AgentState × Effects :=
  if st.blocked then (st, noEffects)
  else
    match decodeOutcome with
    | .ok typed =>
      ({ st with
         raw_tool_result := some invokeRaw,
         typed := some typed,
         output := some (Json.obj
           [("type", Json.str "tool_result"),
            ("plan", st.plan.getD Json.null),
            ("typed", typed),
            ("raw", invokeRaw)]) }, oneInvoke)
    | .error e =>
      ({ st with
         raw_tool_result := some invokeRaw,
         output := some (Json.obj
           [("type", Json.str "tool_result"),
            ("plan", st.plan.getD Json.null),
            ("note", Json.str ("Typed parsing blocked: " ++ e)),
            ("raw", invokeRaw)]) }, oneInvoke)

/-- src/graph/langgraph_agent.py _wants_summary. -/
def wants_summary (q : String) : Bool :=
  pyInStr "summarize" (pyLower q)

/-- The source text node_grounded_summarize hands to the generator and to
the grounding check: json.dumps of the typed payload (the node inlines the
dumps and does not call _to_source_text). -/
def summarize_source_text (typed : Json) : String :=
  pyJsonDumps typed

/-- src/graph/langgraph_agent.py node_grounded_summarize: skipped unless
enabled or requested and a truthy typed payload exists; NOT_FOUND payloads
and unrequested search results only gain a note; otherwise one generator
call is made (its content a function of the source text, since the messages
embed that text) and the summary is accepted only when grounded, a failure
degrading to a note. A decode error from chat_json propagates. -/
def node_grounded_summarize (enabled : Bool) (summaryContent : String → String)
    (st : AgentState) : Except String AgentState × Effects :=
  if st.blocked then (.ok st, noEffects)
  else
    let wants := wants_summary st.user_query
    if !(enabled || wants) then (.ok st, noEffects)
    else
      match st.typed with
      | none => (.ok st, noEffects)
      | some typed =>
        if !typed.pyTruthy then (.ok st, noEffects)
        else if typed.isObj && typed.get "content" == some (Json.str "NOT_FOUND") then
          (.ok { st with output := some ((st.output.getD (Json.obj [])).setKey
            "note" (Json.str "Summary skipped: content is NOT_FOUND.")) }, noEffects)
        else if (st.tool.getD "").startsWith "search_" && !wants then
          (.ok { st with output := some ((st.output.getD (Json.obj [])).setKey
            "note" (Json.str
              "Summary skipped: search results (set SAFE_SUMMARIZE=1 + ask \x27summarize\x27 if needed).")) },
           noEffects)
        else
          let source_text := summarize_source_text typed
          match chat_json_parse (summaryContent source_text) with
          | .error e => (.error e, oneLlmCall)
          | .ok raw =>
            match parse_strict_json_plan raw with
            | .error e =>
              (.ok { st with output := some ((st.output.getD (Json.obj [])).setKey
                "note" (Json.str ("Summary blocked (grounding failed): " ++ e))) },
               oneLlmCall)
            | .ok summary =>
              match validate_grounded_summary summary source_text with
              | .error e =>
                (.ok { st with output := some ((st.output.getD (Json.obj [])).setKey
                  "note" (Json.str ("Summary blocked (grounding failed): " ++ e))) },
                 oneLlmCall)
              | .ok _ =>
                (.ok { st with
                  summary := some summary,
                  output := some (((st.output.getD (Json.obj [])).setKey
                    "type" (Json.str "tool_result_with_summary")).setKey
                    "summary" summary) },
                 oneLlmCall)

/-- src/graph/langgraph_agent.py route_after_policy: END (none) when
blocked, else the discover node. -/
def route_after_policy (st : AgentState) : Option String :=
  if st.blocked then none else some "discover_tools"

/-- src/graph/langgraph_agent.py route_after_plan. -/
def route_after_plan (st : AgentState) : Option String :=
  if st.blocked then none else some "validate_and_select"

/-- src/graph/langgraph_agent.py route_after_validate, extended as the spec
models it (§4.7): a FinalAnswer plan has set the output without selecting a
server and short-circuits to Done here. -/
def route_after_validate (st : AgentState) : Option String :=
  if st.blocked then none
  else if st.server.isNone then none
  else some "call_tool"

/-- The unconditional successor edge of the discover node in build_graph. -/
def route_after_discover : Option String := some "plan"

/-- Oracle inputs of one pipeline run: the safety denylist check, the
per-server discovery outcomes, the generator completions and the
invocation/decoding outcomes. -/
structure PipeOracles where
  check : PolicyCheck
  discovery : List (String × Except String Json)
  planContent : String
  invokeRaw : Json
  decodeOutcome : Except String Json
  summarizeEnabled : Bool
  summaryContent : String → String

/-- The compiled graph of build_graph, stage by stage with the conditional
edges of the source: policy gate, discover, plan, validate/select,
call_tool, grounded summarize. Returns the final state (or the propagated
exception) with the effect counters of the run. -/
def run_pipeline (o : PipeOracles) (q : String) :
    Except String AgentState × Effects :=
  let st1 := node_policy_gate o.check { user_query := q }
  if (route_after_policy st1).isNone then (.ok st1, noEffects)
  else
    match node_discover_tools o.discovery st1 with
    | .error e => (.error e, oneDiscover)
    | .ok st2 =>
      match node_plan o.planContent st2 with
      | (.error e, eff) => (.error e, oneDiscover.add eff)
      | (.ok st3, eff3) =>
        if (route_after_plan st3).isNone then (.ok st3, oneDiscover.add eff3)
        else
          let st4 := node_validate_and_select st3
          if (route_after_validate st4).isNone then
            (.ok st4, oneDiscover.add eff3)
          else
            match node_call_tool o.invokeRaw o.decodeOutcome st4 with
            | (st5, eff5) =>
              match node_grounded_summarize o.summarizeEnabled
                  o.summaryContent st5 with
              | (.error e, eff6) =>
                (.error e, ((oneDiscover.add eff3).add eff5).add eff6)
              | (.ok st6, eff6) =>
                (.ok st6, ((oneDiscover.add eff3).add eff5).add eff6)

/-- src/graph/langgraph_agent.py run_once: the output field of the final
state, with the error fallback. -/
def run_once (o : PipeOracles) (q : String) : Except String Json × Effects :=
  match run_pipeline o q with
  | (.ok st, eff) =>
    (.ok (st.output.getD (Json.obj
      [("type", Json.str "error"), ("reason", Json.str "no output")])), eff)
  | (.error e, eff) => (.error e, eff)

/-
Session model (src/host/multi_mcp_host.py MCPSSESession). The reader
thread delivers parsed messages into the inbox keyed by id; rpc posts a
request whose id is the wall-clock millisecond timestamp at the call; the
waiter polls for exactly its own id. The clock readings are explicit
inputs.
-/

/-- The per-session mutable state shared between the reader thread and the
calling path. -/
structure SessionState where
  inbox : List (Int × Json) := []
  errors : List String := []
  deriving Repr, DecidableEq

/-- MCPSSESession.rpc request id: the _now_ms() reading at the call. -/
def rpc_id (now_ms : Int) : Int := now_ms

/-- The ids carried by a sequence of rpc calls under a clock trace. -/
def rpc_ids (clock : List Int) : List Int := clock.map rpc_id

/-- Insert a message under its id, overwriting a previous message with the
same id (dict assignment). -/
def inboxInsert (inbox : List (Int × Json)) (rid : Int) (msg : Json) :
    List (Int × Json) :=
  if inbox.any (fun kv => kv.1 == rid) then
    inbox.map (fun kv => if kv.1 == rid then (rid, msg) else kv)
  else inbox ++ [(rid, msg)]

/-- The SSE on_event callback for a message event: a parsed dict carrying an
integer id is stored in the inbox under that id; everything else is
dropped. -/
def deliver_message (s : SessionState) (msg : Json) : SessionState :=
  if msg.isObj then
    match msg.get "id" with
    | some (Json.num rid) => { s with inbox := inboxInsert s.inbox rid msg }
    | _ => s
  else s

/-- The reader error callback: the error is appended to the error list. -/
def deliver_error (s : SessionState) (e : String) : SessionState :=
  { s with errors := s.errors ++ [e] }

/-- Outcome of one poll iteration of wait_for_id. -/
inductive WaitResult where
  | delivered (msg : Json) (rest : SessionState)
  | readerError (e : String)
  | pending
  deriving Repr, DecidableEq

/-- One poll iteration of MCPSSESession.wait_for_id: pop the inbox entry
stored under exactly the requested id when present; otherwise surface the
latest reader error; otherwise keep waiting (a timeout elapses when this
never changes). -/
def wait_poll (s : SessionState) (rid : Int) : WaitResult :=
  match s.inbox.find? (fun kv => kv.1 == rid) with
  | some kv => .delivered kv.2 { s with inbox := s.inbox.filter (fun e => e.1 != rid) }
  | none =>
    match s.errors.getLast? with
    | some e => .readerError e
    | none => .pending

/-- The plan the deterministic router synthesizes for the query
"fetch sp-001" (Scenario A). -/
def spForcedPlan : Json :=
  Json.obj
    [("type", Json.str "call_tool"),
     ("server", Json.str "mcp-sharepoint"),
     ("tool", Json.str "fetch_sharepoint_doc"),
     ("args", Json.obj [("doc_id", Json.str "sp-001")])]

/-- A concrete final_answer plan (witness fixture). -/
def finalAnswerPlanFixture : Json :=
  Json.obj
    [("type", Json.str "final_answer"),
     ("answer", Json.str "All good."),
     ("needs_more_info", Json.bool false)]

/-- A state that has just planned the final_answer fixture (witness
fixture). -/
def finalAnswerStateFixture : AgentState :=
  { user_query := "q", plan := some finalAnswerPlanFixture }

/-- A state whose blocked flag is set (witness fixture). -/
def blockedStateFixture : AgentState :=
  { user_query := "x", blocked := true, reason := some "unsafe" }

/-- Oracles whose safety check rejects everything (witness fixture). -/
def denyAllOracles : PipeOracles :=
  { check := fun _ => (false, "matched denylist"),
    discovery := [],
    planContent := "",
    invokeRaw := Json.null,
    decodeOutcome := Except.error "no decode",
    summarizeEnabled := false,
    summaryContent := fun _ => "" }

/-- A summary accepted by every rule of C2 as stated (its claim text " " is
a non-empty string) but rejected by the code (counterexample fixture). -/
def c2Summary : Json :=
  Json.obj
    [("type", Json.str "summary"),
     ("bullets", Json.arr
       [Json.obj [("claim", Json.str " "), ("evidence", Json.str "PII")]]),
     ("risks", Json.arr []),
     ("recommendations", Json.arr [])]

/-- Source text for the C2 counterexample. -/
def c2Source : String := "PII Logging Policy"

/-- A 9000-character string (C5 failing-input fixture). -/
def bigContent : String := String.mk (List.replicate 9000 'a')

/-- A typed payload whose canonical serialization exceeds the 8000
character bound (C5 failing input). -/
def bigTypedFixture : Json := Json.obj [("content", Json.str bigContent)]

/-- A generator response that is not directly parseable and contains two
separate JSON objects (C6 counterexample fixture). -/
def c6Content : String := "note \x7b\x22a\x22: 1\x7d and \x7b\x22b\x22: 2\x7d"

/-- A generator response holding prose around one JSON object (C6 witness
fixture). -/
def c6SingleObject : String := "x \x7b\x22a\x22: 1\x7d y"

/-- A session with two pending responses (C9 witness fixture). -/
def sessionFixture : SessionState :=
  { inbox := [(7, Json.obj [("id", Json.num 7), ("result", Json.str "seven")]),
              (9, Json.obj [("id", Json.num 9), ("result", Json.str "nine")])] }

/-- A response message carrying id 9 (C9 witness fixture). -/
def msgNine : Json := Json.obj [("id", Json.num 9), ("result", Json.str "late")]

/-- The capability a call_tool plan names is absent from the catalog: the
server key is missing or malformed, or its tool list carries no matching
name. -/
def capabilityAbsent (catalog : Json) (server tool : String) : Bool :=
  match catalog.get server with
  | some (Json.arr tools) =>
    (tools.find? (fun t => t.get "name" == some (Json.str tool))).isNone
  | _ => true

/-- Tool descriptor of search_policies as served over the wire
(fixture). -/
def searchPoliciesDescr : Json :=
  Json.obj
    [("name", Json.str "search_policies"),
     ("description", Json.str "Search policies by title"),
     ("inputSchema", Json.obj
       [("type", Json.str "object"),
        ("required", Json.arr [Json.str "query"])])]

/-- Tool descriptor of get_policy as served over the wire (fixture). -/
def getPolicyDescr : Json :=
  Json.obj
    [("name", Json.str "get_policy"),
     ("description", Json.str "Fetch a policy by id"),
     ("inputSchema", Json.obj
       [("type", Json.str "object"),
        ("required", Json.arr [Json.str "policy_id"])])]

/-- A tools/list response of the policy-kb server over the wire (fixture:
its two registered tools). -/
def policyKbListToolsResp : Json :=
  Json.obj
    [("jsonrpc", Json.str "2.0"),
     ("id", Json.num 3),
     ("result", Json.obj
       [("tools", Json.arr [searchPoliciesDescr, getPolicyDescr])])]

/-- The catalog discovery derives from the policy-kb response (fixture). -/
def policyCatalogFixture : Json :=
  Json.obj
    [("mcp-policy-kb", Json.arr [searchPoliciesDescr, getPolicyDescr])]

/-- Oracles for a run against the live policy-kb catalog, with a
permissive safety check (fixture). -/
def policyOracles : PipeOracles :=
  { check := fun _ => (true, ""),
    discovery := [("mcp-policy-kb", Except.ok policyKbListToolsResp)],
    planContent := "",
    invokeRaw := Json.null,
    decodeOutcome := Except.error "unused",
    summarizeEnabled := false,
    summaryContent := fun _ => "" }

/-- The forced plan of the policy-id route (fixture). -/
def policyForcedPlan : Json :=
  Json.obj
    [("type", Json.str "call_tool"),
     ("server", Json.str "mcp-policy-kb"),
     ("tool", Json.str "fetch_policy_entry"),
     ("args", Json.obj [("policy_id", Json.str "policy-001")])]

/-- A surviving discovery response the node can fully process: its result
value is a dict whose tools entry, when present, is a list of dict entries
each carrying a name. -/
def respWellFormed (resp : Json) : Bool :=
  match resp.get "result" with
  | some (Json.obj rf) =>
    match (Json.obj rf).get "tools" with
    | some (Json.arr ts) => ts.all (fun t => t.isObj && t.hasKey "name")
    | none => true
    | some _ => false
  | _ => false

/-- A just-planned state with no discovered catalog (C10 witness
fixture). -/
def c10StateNoCatalog : AgentState := { user_query := "fetch policy-001" }

/-- A just-planned state holding the live policy-kb catalog (C10 witness
fixture). -/
def c10StateWithCatalog : AgentState :=
  { user_query := "fetch policy-001",
    catalog_dict := some policyCatalogFixture }

/-- A state carrying the forced policy plan and the live catalog (C10
witness fixture). -/
def c10StatePlanned : AgentState :=
  { user_query := "fetch policy-001",
    plan := some policyForcedPlan,
    catalog_dict := some policyCatalogFixture }

/-
Theorems.
-/

/-- C1: for every query containing a recognized identifier (the router
finds a SharePoint, policy or ticket id), node_plan synthesizes the forced
plan deterministically and performs zero generator calls, whatever
completion the generator would have produced; and the query
"fetch sp-001" yields the Invoke plan on mcp-sharepoint /
fetch_sharepoint_doc with doc_id sp-001. -/
theorem deterministic_id_route_bypasses_generator
    (content : String) (st : AgentState)
    (hb : st.blocked = false)
    (hid : (deterministic_plan_from_ids st.user_query).isSome) :
    (∃ forced, deterministic_plan_from_ids st.user_query = some forced ∧
      node_plan content st =
        (Except.ok { st with
          raw_plan := some (Json.obj
            [("forced", Json.bool true), ("plan", forced)]),
          plan := some forced }, noEffects)) ∧
    (node_plan content st).2.llmCalls = 0 ∧
    deterministic_plan_from_ids "fetch sp-001" = some spForcedPlan := by
  rcases hf : deterministic_plan_from_ids st.user_query with _ | forced
  · rw [hf] at hid; simp [Option.isSome] at hid
  · refine ⟨⟨forced, rfl, ?_⟩, ?_, by decide⟩
    · simp [node_plan, hb, hf]
    · simp [node_plan, hb, hf, noEffects]

/-- Witness for C1 at the query "fetch sp-001". -/
theorem deterministic_id_route_bypasses_generator_witness :
    (∃ forced,
      deterministic_plan_from_ids
        ({ user_query := "fetch sp-001" } : AgentState).user_query = some forced ∧
      node_plan "ignored" { user_query := "fetch sp-001" } =
        (Except.ok { ({ user_query := "fetch sp-001" } : AgentState) with
          raw_plan := some (Json.obj
            [("forced", Json.bool true), ("plan", forced)]),
          plan := some forced }, noEffects)) ∧
    (node_plan "ignored" { user_query := "fetch sp-001" }).2.llmCalls = 0 ∧
    deterministic_plan_from_ids "fetch sp-001" = some spForcedPlan :=
  deterministic_id_route_bypasses_generator "ignored"
    { user_query := "fetch sp-001" } rfl (by decide)

/-- C4: the deterministic router answers a policy id with the server
mcp-policy-kb and the expected argument name policy_id, but names the
capability fetch_policy_entry — a tool that is registered neither in
TOOL_OUTPUT_MODELS (which registers get_policy for policy lookup on
mcp-policy-kb) nor on the policy-kb server itself, whose only tools are
search_policies and get_policy. -/
theorem policy_id_route_names_unregistered_tool :
    deterministic_plan_from_ids "fetch policy-001" =
      some (Json.obj
        [("type", Json.str "call_tool"),
         ("server", Json.str "mcp-policy-kb"),
         ("tool", Json.str "fetch_policy_entry"),
         ("args", Json.obj [("policy_id", Json.str "policy-001")])]) ∧
    TOOL_OUTPUT_MODELS.all
      (fun kv => !(kv.1 == ("mcp-policy-kb", "fetch_policy_entry"))) = true ∧
    TOOL_OUTPUT_MODELS.any
      (fun kv => kv.1 == ("mcp-policy-kb", "get_policy")) = true ∧
    policy_kb_tools = ["search_policies", "get_policy"] ∧
    policy_kb_tools.contains "fetch_policy_entry" = false := by
  decide

/-- C3: a plan whose tag is final_answer is terminal output, never an error
and never a transition to Blocked: the route after planning proceeds to
validation, validation succeeds whatever the catalog and stores the plan
(the answer) as the output, the blocked flag stays false, and the route
after validation short-circuits to END (Done). -/
theorem final_answer_plan_short_circuits_to_done
    (st : AgentState) (plan : Json)
    (hb : st.blocked = false)
    (hs : st.server = none)
    (hp : st.plan = some plan)
    (hty : plan.get "type" = some (Json.str "final_answer")) :
    route_after_plan st = some "validate_and_select" ∧
    node_validate_and_select st = { st with output := some plan } ∧
    (node_validate_and_select st).blocked = false ∧
    route_after_validate (node_validate_and_select st) = none := by
  have hv : validate_plan plan (st.catalog_dict.getD Json.null) =
      .ok (.finalAnswer plan) := by
    unfold validate_plan
    rw [hty]
    rfl
  refine ⟨by simp [route_after_plan, hb], ?_, ?_, ?_⟩
  · simp [node_validate_and_select, hb, hp, hv]
  · simp [node_validate_and_select, hb, hp, hv]
  · simp [node_validate_and_select, hb, hp, hv, route_after_validate, hs]

/-- Escaping a run of plain letters changes nothing. -/
theorem escape_replicate (n : Nat) :
    (List.replicate n 'a').flatMap jsonEscapeChar = List.replicate n 'a' := by
  induction n with
  | zero => rfl
  | succ n ih =>
    rw [List.replicate_succ, List.flatMap_cons, ih]
    rfl

/-- The head of a needle that occurs contiguously is a member of the hay. -/
theorem inCharList_head_mem (c : Char) (n h : List Char)
    (hin : inCharList (c :: n) h = true) : c ∈ h := by
  induction h with
  | nil => simp [inCharList] at hin
  | cons d t ih =>
    unfold inCharList at hin
    rcases (Bool.or_eq_true _ _) ▸ hin with hp | ht
    · have hcd : c = d := by
        simp [List.isPrefixOf] at hp
        exact hp.1
      rw [hcd]
      exact List.mem_cons_self d t
    · exact List.mem_cons_of_mem d (ih ht)

/-- C5 (code bug): the source text node_grounded_summarize hands to the
generator and to the grounding check is the raw canonical serialization of
the typed result with no truncation at all: for every typed payload the
node uses json.dumps verbatim, and at a payload whose serialization is
9019 characters long the full 9019 characters are used, the text carries
no truncation marker, and it differs from what the truncating helper
_to_source_text — the behavior the spec describes, imported by the graph
module yet never called — produces at the 8000 bound. -/
theorem summarize_source_text_never_truncated :
    (∀ typed, summarize_source_text typed = pyJsonDumps typed) ∧
    (summarize_source_text bigTypedFixture).length = 9019 ∧
    8000 < (summarize_source_text bigTypedFixture).length ∧
    (to_source_text bigTypedFixture 8000).length = 8018 ∧
    to_source_text bigTypedFixture 8000 ≠ summarize_source_text bigTypedFixture ∧
    pyInStr "[TRUNCATED]" (summarize_source_text bigTypedFixture) = false := by
  have hesc : jsonEscapeString bigContent =
      '\x22' :: List.replicate 9000 'a' ++ ['\x22'] := by
    unfold jsonEscapeString
    rw [show bigContent.toList = List.replicate 9000 'a' from rfl,
      escape_replicate]
  have hd : dumpsValue 0 bigTypedFixture =
      '\x7b' :: '\n' :: indentChars 2 ++ jsonEscapeString "content" ++
        ':' :: ' ' :: jsonEscapeString bigContent ++ dumpsFields 2 [] ++
        '\n' :: indentChars 0 ++ ['\x7d'] := rfl
  have hsplit : (summarize_source_text bigTypedFixture).toList =
      (('\x7b' :: '\n' :: indentChars 2 ++ jsonEscapeString "content" ++
          [':', ' ', '\x22']) ++ List.replicate 9000 'a') ++
        ('\x22' :: dumpsFields 2 [] ++ '\n' :: indentChars 0 ++ ['\x7d']) := by
    show dumpsValue 0 bigTypedFixture = _
    rw [hd, hesc]
    simp only [List.append_assoc, List.cons_append, List.nil_append]
  have hlen : (summarize_source_text bigTypedFixture).length = 9019 := by
    show (summarize_source_text bigTypedFixture).toList.length = 9019
    rw [hsplit]
    have h1 : ('\x7b' :: '\n' :: indentChars 2 ++ jsonEscapeString "content" ++
        [':', ' ', '\x22']).length = 16 := by decide
    have h2 : ('\x22' :: dumpsFields 2 [] ++ '\n' :: indentChars 0 ++
        ['\x7d']).length = 3 := by decide
    simp only [List.length_append, h1, h2, List.length_replicate]
  have hcond : 8000 < (pyJsonDumps bigTypedFixture).length := by
    have : (pyJsonDumps bigTypedFixture).length = 9019 := hlen
    rw [this]; norm_num
  have hts : to_source_text bigTypedFixture 8000 =
      String.mk ((pyJsonDumps bigTypedFixture).toList.take 8000) ++
        "\n...[TRUNCATED]..." := by
    show (if 8000 < (pyJsonDumps bigTypedFixture).length then
        String.mk ((pyJsonDumps bigTypedFixture).toList.take 8000) ++
          "\n...[TRUNCATED]..."
      else pyJsonDumps bigTypedFixture) = _
    rw [if_pos hcond]
  have htake : ((pyJsonDumps bigTypedFixture).toList.take 8000).length = 8000 := by
    rw [List.length_take]
    have h9 : (pyJsonDumps bigTypedFixture).toList.length = 9019 := hlen
    rw [h9]
    norm_num
  have htlen : (to_source_text bigTypedFixture 8000).length = 8018 := by
    rw [hts, String.length_append]
    have hmkl : (String.mk ((pyJsonDumps bigTypedFixture).toList.take 8000)).length
        = ((pyJsonDumps bigTypedFixture).toList.take 8000).length := rfl
    rw [hmkl, htake]
    rfl
  have hne : to_source_text bigTypedFixture 8000 ≠
      summarize_source_text bigTypedFixture := by
    intro h
    have hlc := congrArg String.length h
    rw [htlen, hlen] at hlc
    exact absurd hlc (by norm_num)
  have hmk : pyInStr "[TRUNCATED]" (summarize_source_text bigTypedFixture)
      = false := by
    cases hmm : pyInStr "[TRUNCATED]" (summarize_source_text bigTypedFixture)
    · rfl
    · exfalso
      have hmem : '[' ∈ (summarize_source_text bigTypedFixture).toList :=
        inCharList_head_mem '[' ("TRUNCATED]".toList) _ hmm
      rw [hsplit] at hmem
      rcases List.mem_append.1 hmem with hm | hm
      · rcases List.mem_append.1 hm with hm2 | hm2
        · exact absurd hm2 (by decide)
        · exact absurd (List.eq_of_mem_replicate hm2) (by decide)
      · exact absurd hm (by decide)
  exact ⟨fun typed => rfl, hlen, by rw [hlen]; norm_num, htlen, hne, hmk⟩

/-- C6 counterexample: a planning response that is not directly parseable
and whose first BALANCED braces substring parses fine; the code
nevertheless raises a decode error out of the planning node, because it
slices from the first opening brace to the LAST closing brace, which is
not valid JSON — the extraction the claim describes is not performed, and
no PlanParseError / Blocked transition happens on this input. -/
theorem plan_parse_fallback_counterexample :
    pyJsonLoads (pyStrip c6Content) = none ∧
    firstBalancedBraces c6Content = some "\x7b\x22a\x22: 1\x7d" ∧
    pyJsonLoads "\x7b\x22a\x22: 1\x7d" = some (Json.obj [("a", Json.num 1)]) ∧
    chat_json_parse c6Content = .error "json.JSONDecodeError" ∧
    node_plan c6Content { user_query := "plan the rollout" } =
      (.error "json.JSONDecodeError", oneLlmCall) := by
  decide

/-- C6 (amended): when the generator planning response is not directly
parseable as JSON, the substring from the first opening brace to the last
closing brace is extracted and parsed and, when that parse succeeds, its
value is the planning result; when the slice is absent or fails to parse,
the JSON decode error propagates out of the planning stage uncaught — the
pipeline does not transition to Blocked; the Blocked path with the raw
output attached arises when the response parses to a non-object value:
planning then fails with PlanParseError and the blocked output carries the
str() of the parsed value truncated to 400 characters. -/
theorem plan_parse_fallback_amended :
    (∀ content st, st.blocked = false →
      deterministic_plan_from_ids st.user_query = none →
      chat_json_parse content = .error "json.JSONDecodeError" →
      node_plan content st = (.error "json.JSONDecodeError", oneLlmCall)) ∧
    (∀ content start stop j,
      pyJsonLoads (pyStrip content) = none →
      pyFindChar (pyStrip content).toList '\x7b' = some start →
      pyRfindChar (pyStrip content).toList '\x7d' = some stop →
      start < stop →
      pyJsonLoads (String.mk (((pyStrip content).toList.drop start).take
        (stop + 1 - start))) = some j →
      chat_json_parse content = .ok j) ∧
    (∀ content st raw, st.blocked = false →
      deterministic_plan_from_ids st.user_query = none →
      chat_json_parse content = .ok raw →
      raw.isObj = false →
      node_plan content st = (.ok { st with
        raw_plan := some raw,
        blocked := true,
        reason := some "Planner output rejected: planner output is not a JSON object",
        output := some (Json.obj
          [("type", Json.str "blocked"),
           ("reason", Json.str
             "Planner output rejected: planner output is not a JSON object"),
           ("raw", Json.str (String.mk ((pyStr raw).toList.take 400)))]) },
        oneLlmCall)) := by
  refine ⟨?_, ?_, ?_⟩
  · intro content st hb hdet hcjp
    unfold node_plan
    simp [hb, hdet, hcjp]
  · intro content start stop j hdirect hfind hrfind hlt hslice
    unfold chat_json_parse
    simp only [hdirect, hfind, hrfind, hslice, if_pos hlt]
  · intro content st raw hb hdet hcjp hobj
    have hps : parse_strict_json_plan raw =
        .error "planner output is not a JSON object" := by
      unfold parse_strict_json_plan
      rw [hobj]
      rfl
    unfold node_plan
    simp [hb, hdet, hcjp, hps]

/-- Witness for C6 (amended), instantiating all three branches at concrete
responses: the two-object prose response raises out of node_plan, the
single-object prose response is extracted by the first-to-last brace
slice, and a JSON-array response blocks with the truncated str() raw
attached. -/
theorem plan_parse_fallback_amended_witness :
    node_plan c6Content { user_query := "plan the rollout" } =
      (.error "json.JSONDecodeError", oneLlmCall) ∧
    chat_json_parse c6SingleObject = .ok (Json.obj [("a", Json.num 1)]) ∧
    node_plan "[1, 2]" { user_query := "plan the rollout" } =
      (.ok { ({ user_query := "plan the rollout" } : AgentState) with
        raw_plan := some (Json.arr [Json.num 1, Json.num 2]),
        blocked := true,
        reason := some "Planner output rejected: planner output is not a JSON object",
        output := some (Json.obj
          [("type", Json.str "blocked"),
           ("reason", Json.str
             "Planner output rejected: planner output is not a JSON object"),
           ("raw", Json.str "[1, 2]")]) },
        oneLlmCall) := by
  have h := plan_parse_fallback_amended
  refine ⟨h.1 c6Content { user_query := "plan the rollout" } rfl (by decide)
      (by decide),
    h.2.1 c6SingleObject 2 9 (Json.obj [("a", Json.num 1)]) (by decide)
      (by decide) (by decide) (by decide) (by decide), ?_⟩
  have h3 := h.2.2 "[1, 2]" { user_query := "plan the rollout" }
    (Json.arr [Json.num 1, Json.num 2]) rfl (by decide) (by decide) (by decide)
  rw [h3]
  have : String.mk ((pyStr (Json.arr [Json.num 1, Json.num 2])).toList.take 400)
      = "[1, 2]" := by decide
  rw [this]

/-- Replacing the entries keyed y leaves lookups of a different key x
untouched. -/
theorem find_map_replace (y x : Int) (msg : Json) (hxy : y ≠ x) :
    ∀ l : List (Int × Json),
      (l.map (fun kv => if kv.1 == y then (y, msg) else kv)).find?
        (fun kv => kv.1 == x) = l.find? (fun kv => kv.1 == x)
  | [] => rfl
  | kv :: t => by
    rw [List.map_cons]
    by_cases hk : kv.1 = y
    · have h1 : (if kv.1 == y then (y, msg) else kv) = (y, msg) := by
        simp [hk]
      rw [h1, List.find?_cons_of_neg _ (by simp [hxy]),
        List.find?_cons_of_neg _ (by simp [hk, hxy])]
      exact find_map_replace y x msg hxy t
    · have h1 : (if kv.1 == y then (y, msg) else kv) = kv := by simp [hk]
      rw [h1]
      by_cases hx : kv.1 = x
      · rw [List.find?_cons_of_pos _ (by simp [hx]),
          List.find?_cons_of_pos _ (by simp [hx])]
      · rw [List.find?_cons_of_neg _ (by simp [hx]),
          List.find?_cons_of_neg _ (by simp [hx])]
        exact find_map_replace y x msg hxy t

/-- Appending an entry keyed y leaves lookups of a different key x
untouched. -/
theorem find_append_other (y x : Int) (msg : Json) (hxy : y ≠ x) :
    ∀ l : List (Int × Json),
      (l ++ [(y, msg)]).find? (fun kv => kv.1 == x) =
        l.find? (fun kv => kv.1 == x)
  | [] => by
    rw [List.nil_append, List.find?_cons_of_neg _ (by simp [hxy])]
  | kv :: t => by
    rw [List.cons_append]
    by_cases hx : kv.1 = x
    · rw [List.find?_cons_of_pos _ (by simp [hx]),
        List.find?_cons_of_pos _ (by simp [hx])]
    · rw [List.find?_cons_of_neg _ (by simp [hx]),
        List.find?_cons_of_neg _ (by simp [hx])]
      exact find_append_other y x msg hxy t

/-- Storing a message under id y leaves lookups of a different id x
untouched. -/
theorem find_insert_other (l : List (Int × Json)) (y : Int) (msg : Json)
    (x : Int) (hxy : y ≠ x) :
    (inboxInsert l y msg).find? (fun kv => kv.1 == x) =
      l.find? (fun kv => kv.1 == x) := by
  unfold inboxInsert
  by_cases hany : l.any (fun kv => kv.1 == y) = true
  · simp only [hany, if_true]
    exact find_map_replace y x msg hxy l
  · simp only [Bool.not_eq_true] at hany
    simp only [hany, Bool.false_eq_true, if_false]
    exact find_append_other y x msg hxy l

/-- C9 counterexample: request ids are wall-clock millisecond readings
(_now_ms), so two rpc calls issued within the same millisecond carry the
same id — the claimed uniqueness of correlation ids fails. -/
theorem session_rpc_ids_counterexample :
    rpc_ids [1715000000000, 1715000000000] =
      [1715000000000, 1715000000000] ∧
    ¬ (rpc_ids [1715000000000, 1715000000000]).Pairwise (· ≠ ·) := by
  refine ⟨rfl, ?_⟩
  intro h
  rw [show rpc_ids [1715000000000, 1715000000000] =
    [(1715000000000 : Int), 1715000000000] from rfl] at h
  rcases List.pairwise_cons.1 h with ⟨h1, _⟩
  exact h1 1715000000000 (List.mem_singleton.2 rfl) rfl

/-- C9 (amended): request ids are the wall-clock millisecond readings at
issue time, pairwise distinct exactly when no two requests share a
millisecond; and response matching is id-exact — a poll for id X delivers
only a message stored under X, pops only the X entry, and delivering a
response with a different id never changes what a waiter for X sees. -/
theorem session_id_matching_exact :
    (∀ clock : List Int, clock.Pairwise (· ≠ ·) →
      (rpc_ids clock).Pairwise (· ≠ ·)) ∧
    (∀ s rid msg rest, wait_poll s rid = .delivered msg rest →
      (rid, msg) ∈ s.inbox ∧
      rest.inbox = s.inbox.filter (fun e => e.1 != rid)) ∧
    (∀ s x y msg, msg.get "id" = some (Json.num y) → y ≠ x →
      (deliver_message s msg).inbox.find? (fun kv => kv.1 == x) =
        s.inbox.find? (fun kv => kv.1 == x)) := by
  refine ⟨?_, ?_, ?_⟩
  · intro clock h
    have : rpc_ids clock = clock := by
      unfold rpc_ids rpc_id
      exact List.map_id clock
    rw [this]
    exact h
  · intro s rid msg rest h
    unfold wait_poll at h
    rcases hf : s.inbox.find? (fun kv => kv.1 == rid) with _ | kv
    · rw [hf] at h
      rcases hg : s.errors.getLast? with _ | e <;> rw [hg] at h <;>
        exact absurd h (by simp)
    · rw [hf] at h
      rcases h with ⟨⟩
      have hk : kv.1 = rid := by
        have hp := List.find?_some hf
        simp only [beq_iff_eq] at hp
        exact hp
      constructor
      · have hm := List.mem_of_find?_eq_some hf
        have : kv = (rid, kv.2) := by
          cases kv
          simp only at hk
          rw [hk]
        rw [← this]
        exact hm
      · rfl
  · intro s x y msg hid hxy
    unfold deliver_message
    cases hobj : msg.isObj
    · simp
    · simp only [hobj, if_true]
      rw [hid]
      exact find_insert_other s.inbox y msg x hxy

/-- Witness for C9 (amended): a distinct clock trace yields distinct ids,
a poll for id 7 on the two-pending-response session delivers the id-7
message and pops only that entry, and delivering a fresh id-9 response
does not change what the id-7 waiter sees. -/
theorem session_id_matching_exact_witness :
    (rpc_ids [1, 2]).Pairwise (· ≠ ·) ∧
    ((7 : Int), Json.obj [("id", Json.num 7), ("result", Json.str "seven")])
      ∈ sessionFixture.inbox ∧
    (deliver_message sessionFixture msgNine).inbox.find?
      (fun kv => kv.1 == (7 : Int)) =
      sessionFixture.inbox.find? (fun kv => kv.1 == (7 : Int)) := by
  have h := session_id_matching_exact
  refine ⟨h.1 [1, 2] (by decide), ?_, ?_⟩
  · have h2 := h.2.1 sessionFixture 7
      (Json.obj [("id", Json.num 7), ("result", Json.str "seven")])
      { sessionFixture with
        inbox := sessionFixture.inbox.filter (fun e => e.1 != (7 : Int)) }
      (by decide)
    exact h2.1
  · exact h.2.2 sessionFixture 7 9 msgNine (by decide) (by decide)

/-- tools_all preserves the server names. -/
theorem tools_all_map_fst (rs : List (String × Except String Json)) :
    (tools_all rs).map Prod.fst = rs.map Prod.fst := by
  unfold tools_all
  rw [List.map_map]
  apply List.map_congr_left
  intro kv _
  rcases kv with ⟨n, r⟩
  cases r <;> rfl

/-- The allowlist loop preserves the server names. -/
theorem discover_allowlist_map_fst :
    ∀ (l : List (String × Json)) al, discover_allowlist l = .ok al →
      al.map Prod.fst = l.map Prod.fst := by
  intro l
  induction l with
  | nil =>
    intro al h
    unfold discover_allowlist at h
    cases h
    rfl
  | cons kv t ih =>
    intro al h
    unfold discover_allowlist at h
    rcases h1 : allowlist_names kv.2 with e | names <;> rw [h1] at h
    · exact absurd h (by simp)
    · rcases h2 : discover_allowlist t with e | al2 <;> rw [h2] at h
      · exact absurd h (by simp)
      · cases h
        simp [List.map_cons, ih al2 h2]

/-- The per-server catalog loop preserves the server names. -/
theorem build_tool_catalog_entries_map_fst :
    ∀ (l : List (String × Json)) es, build_tool_catalog_entries l = .ok es →
      es.map Prod.fst = l.map Prod.fst := by
  intro l
  induction l with
  | nil =>
    intro es h
    unfold build_tool_catalog_entries at h
    cases h
    rfl
  | cons kv t ih =>
    intro es h
    unfold build_tool_catalog_entries at h
    rcases h1 : server_tools_entry kv.2 with e | tj <;> rw [h1] at h
    · exact absurd h (by simp)
    · rcases h2 : build_tool_catalog_entries t with e | es2 <;> rw [h2] at h
      · exact absurd h (by simp)
      · cases h
        simp [List.map_cons, ih es2 h2]

/-- In a list with pairwise-distinct keys, a key determines its value. -/
theorem keys_nodup_mem_unique {α β : Type} (l : List (α × β))
    (h : (l.map Prod.fst).Nodup) {k : α} {a b : β}
    (ha : (k, a) ∈ l) (hb : (k, b) ∈ l) : a = b := by
  induction l with
  | nil => cases ha
  | cons kv t ih =>
    rw [List.map_cons, List.nodup_cons] at h
    rcases List.mem_cons.1 ha with ha1 | ha1 <;>
      rcases List.mem_cons.1 hb with hb1 | hb1
    · exact congrArg Prod.snd (ha1.trans hb1.symm)
    · exfalso
      apply h.1
      rw [← ha1]
      exact List.mem_map.2 ⟨(k, b), hb1, rfl⟩
    · exfalso
      apply h.1
      rw [← hb1]
      exact List.mem_map.2 ⟨(k, a), ha1, rfl⟩
    · exact ih h.2 ha1 hb1

/-- A dict with a present key yields a value through .get. -/
theorem get_isSome_of_hasKey (t : Json) (k : String)
    (h : (t.isObj && t.hasKey k) = true) : ∃ v, t.get k = some v := by
  cases t <;> simp [Json.isObj] at h
  case obj fields =>
    simp only [Json.hasKey] at h
    rcases List.any_eq_true.1 h with ⟨kv, hkv, hk⟩
    have : (fields.find? (fun kv => kv.1 == k)).isSome := by
      rw [List.find?_isSome]
      exact ⟨kv, hkv, hk⟩
    rcases Option.isSome_iff_exists.1 this with ⟨kv2, hkv2⟩
    exact ⟨kv2.2, by simp [Json.get, hkv2]⟩

/-- Every well-formed tool entry list has a catalog entry list. -/
theorem catalog_entries_ok :
    ∀ ts : List Json, ts.all (fun t => t.isObj && t.hasKey "name") = true →
      ∃ es, catalog_entries ts = .ok es := by
  intro ts
  induction ts with
  | nil => intro _; exact ⟨[], rfl⟩
  | cons t rest ih =>
    intro h
    rw [List.all_cons, Bool.and_eq_true] at h
    rcases get_isSome_of_hasKey t "name" h.1 with ⟨nm, hnm⟩
    rcases ih h.2 with ⟨es, hes⟩
    refine ⟨Json.obj [("name", nm),
      ("description", (t.get "description").getD (Json.str "")),
      ("inputSchema", (t.get "inputSchema").getD (Json.obj []))] :: es, ?_⟩
    unfold catalog_entries catalog_entry
    rw [hnm, hes]

/-- A well-formed response yields allowlist names. -/
theorem allowlist_names_ok (resp : Json) (h : respWellFormed resp = true) :
    ∃ names, allowlist_names resp = .ok names := by
  unfold respWellFormed at h
  unfold allowlist_names
  rcases hr : resp.get "result" with _ | j <;> simp only [hr] at h ⊢
  · exact absurd h (by simp)
  · cases j
    case obj rf =>
      simp only at h ⊢
      rcases ht : (Json.obj rf).get "tools" with _ | tj <;>
        simp only [ht] at h ⊢
      · exact ⟨[], rfl⟩
      · cases tj
        case arr ts => exact ⟨_, rfl⟩
        all_goals simp at h
    all_goals simp at h

/-- A well-formed response yields a server catalog entry. -/
theorem server_tools_entry_ok (resp : Json) (hobj : resp.isObj = true)
    (h : respWellFormed resp = true) :
    ∃ tj, server_tools_entry resp = .ok tj := by
  unfold respWellFormed at h
  unfold server_tools_entry
  cases resp <;> simp [Json.isObj] at hobj
  case obj fields =>
    rcases hr : (Json.obj fields).get "result" with _ | j <;>
      simp only [hr] at h ⊢
    · exact absurd h (by simp)
    · cases j
      case obj rf =>
        simp only [Option.getD_some] at h ⊢
        rcases ht : (Json.obj rf).get "tools" with _ | tj <;>
          simp only [ht] at h ⊢
        · simp only [Option.getD_none]
          exact ⟨Json.arr [], rfl⟩
        · cases tj
          case arr ts =>
            simp only [Option.getD_some] at h ⊢
            rcases catalog_entries_ok ts h with ⟨es, hes⟩
            rw [hes]
            exact ⟨Json.arr es, rfl⟩
          all_goals simp at h
      all_goals simp at h

/-- The allowlist loop succeeds on well-formed surviving responses. -/
theorem discover_allowlist_ok :
    ∀ l : List (String × Json),
      (∀ kv ∈ l, respWellFormed kv.2 = true) →
      ∃ al, discover_allowlist l = .ok al := by
  intro l
  induction l with
  | nil => intro _; exact ⟨[], rfl⟩
  | cons kv t ih =>
    intro h
    rcases allowlist_names_ok kv.2 (h kv (List.mem_cons_self kv t)) with ⟨names, hn⟩
    rcases ih (fun x hx => h x (List.mem_cons_of_mem kv hx)) with ⟨al, hal⟩
    refine ⟨(kv.1, names) :: al, ?_⟩
    unfold discover_allowlist
    rw [hn, hal]

/-- The catalog loop succeeds on well-formed surviving responses. -/
theorem build_tool_catalog_entries_ok :
    ∀ l : List (String × Json),
      (∀ kv ∈ l, kv.2.isObj = true ∧ respWellFormed kv.2 = true) →
      ∃ es, build_tool_catalog_entries l = .ok es := by
  intro l
  induction l with
  | nil => intro _; exact ⟨[], rfl⟩
  | cons kv t ih =>
    intro h
    rcases h kv (List.mem_cons_self kv t) with ⟨hobj, hwf⟩
    rcases server_tools_entry_ok kv.2 hobj hwf with ⟨tj, htj⟩
    rcases ih (fun x hx => h x (List.mem_cons_of_mem kv hx)) with ⟨es, hes⟩
    refine ⟨(kv.1, tj) :: es, ?_⟩
    unfold build_tool_catalog_entries
    rw [htj, hes]

/-- C8 counterexample: a server that answers with the dict
result: 5 — a response that is not well-formed — makes the Discover stage
raise instead of excluding the server and transitioning to Plan; and a
server that answers with the bare number 5 is silently dropped (excluded,
but recorded nowhere — no error entry appears for it). -/
theorem discovery_failure_counterexample :
    node_discover_tools
      [("srv", Except.ok (Json.obj [("result", Json.num 5)]))]
      { user_query := "q" } = .error "AttributeError: result is not a dict" ∧
    tools_all [("srv", Except.ok (Json.num 5))] = [("srv", Json.num 5)] ∧
    (Json.num 5).hasKey "error" = false ∧
    node_discover_tools [("srv", Except.ok (Json.num 5))] { user_query := "q" } =
      .ok { ({ user_query := "q" } : AgentState) with
        tools_payload := some [], allowlist := some [],
        catalog_dict := some (Json.obj []) } := by
  decide

/-- C8 (amended): a server whose discovery request raises is recorded as an
error entry and — like every server whose response is not a dict carrying a
result — excluded from the surviving payload, the Allowlist and the
Catalog, so its capabilities can never be planned against or invoked; and
whenever every surviving response is well-formed the Discover stage
completes without touching the blocked flag and its outgoing edge
unconditionally leads to Plan. -/
theorem discovery_failures_excluded :
    (∀ rs srv e, (srv, Except.error e) ∈ rs →
      (srv, Json.obj [("error", Json.str e)]) ∈ tools_all rs) ∧
    (∀ (rs : List (String × Except String Json)) (st st2 : AgentState) srv resp,
      (rs.map Prod.fst).Nodup →
      (srv, resp) ∈ tools_all rs →
      (resp.isObj && resp.hasKey "result") = false →
      node_discover_tools rs st = .ok st2 →
      (st2.tools_payload.getD []).all (fun kv => !(kv.1 == srv)) = true ∧
      (st2.allowlist.getD []).all (fun kv => !(kv.1 == srv)) = true ∧
      (st2.catalog_dict.getD Json.null).hasKey srv = false) ∧
    (∀ (rs : List (String × Except String Json)) (st : AgentState),
      (∀ kv ∈ (tools_all rs).filter
          (fun kv => kv.2.isObj && kv.2.hasKey "result"),
        respWellFormed kv.2 = true) →
      ∃ st2, node_discover_tools rs st = .ok st2 ∧ st2.blocked = st.blocked) ∧
    route_after_discover = some "plan" := by
  refine ⟨?_, ?_, ?_, rfl⟩
  · intro rs srv e h
    unfold tools_all
    exact List.mem_map.2 ⟨(srv, Except.error e), h, rfl⟩
  · intro rs st st2 srv resp hnd hmem hbad hok
    unfold node_discover_tools at hok
    rcases h1 : discover_allowlist ((tools_all rs).filter
        (fun kv => kv.2.isObj && kv.2.hasKey "result")) with e | al <;>
      simp only [h1] at hok
    · exact absurd hok (by simp)
    · rcases h2 : build_tool_catalog ((tools_all rs).filter
          (fun kv => kv.2.isObj && kv.2.hasKey "result")) with e | cat <;>
        simp only [h2] at hok
      · exact absurd hok (by simp)
      · cases hok
        have hnd2 : ((tools_all rs).map Prod.fst).Nodup := by
          rw [tools_all_map_fst]
          exact hnd
        have hnotin : srv ∉ ((tools_all rs).filter
            (fun kv => kv.2.isObj && kv.2.hasKey "result")).map Prod.fst := by
          intro hin
          rcases List.mem_map.1 hin with ⟨kv, hkv, hfst⟩
          rcases List.mem_filter.1 hkv with ⟨hkv2, hpred⟩
          have hkveq : kv = (srv, kv.2) := by
            rcases kv with ⟨a, b⟩
            simp only at hfst
            rw [hfst]
          rw [hkveq] at hkv2
          have : kv.2 = resp := keys_nodup_mem_unique (tools_all rs) hnd2 hkv2 hmem
          rw [this] at hpred
          rw [hpred] at hbad
          exact absurd hbad (by simp)
        refine ⟨?_, ?_, ?_⟩
        · simp only [Option.getD_some]
          rw [List.all_eq_true]
          intro kv hkv
          simp only [Bool.not_eq_eq_eq_not, Bool.not_true, beq_eq_false_iff_ne,
            ne_eq]
          intro hk
          exact hnotin (List.mem_map.2 ⟨kv, hkv, hk⟩)
        · simp only [Option.getD_some]
          rw [List.all_eq_true]
          intro kv hkv
          simp only [Bool.not_eq_eq_eq_not, Bool.not_true, beq_eq_false_iff_ne,
            ne_eq]
          intro hk
          apply hnotin
          rw [← discover_allowlist_map_fst _ al h1]
          exact List.mem_map.2 ⟨kv, hkv, hk⟩
        · simp only [Option.getD_some]
          unfold build_tool_catalog at h2
          rcases h3 : build_tool_catalog_entries ((tools_all rs).filter
              (fun kv => kv.2.isObj && kv.2.hasKey "result")) with e | es <;>
            rw [h3] at h2
          · exact absurd h2 (by simp)
          · cases h2
            simp only [Json.hasKey]
            rw [Bool.eq_false_iff]
            intro hany
            rcases List.any_eq_true.1 hany with ⟨kv, hkv, hk⟩
            apply hnotin
            rw [← build_tool_catalog_entries_map_fst _ es h3]
            exact List.mem_map.2 ⟨kv, hkv, by simpa using hk⟩
  · intro rs st hwf
    rcases discover_allowlist_ok _ hwf with ⟨al, hal⟩
    have hwf2 : ∀ kv ∈ (tools_all rs).filter
        (fun kv => kv.2.isObj && kv.2.hasKey "result"),
        kv.2.isObj = true ∧ respWellFormed kv.2 = true := by
      intro kv hkv
      rcases List.mem_filter.1 hkv with ⟨_, hpred⟩
      exact ⟨((Bool.and_eq_true _ _) ▸ hpred).1, hwf kv hkv⟩
    rcases build_tool_catalog_entries_ok _ hwf2 with ⟨es, hes⟩
    have hrun : node_discover_tools rs st = .ok { st with
        tools_payload := some ((tools_all rs).filter
          (fun kv => kv.2.isObj && kv.2.hasKey "result")),
        allowlist := some al,
        catalog_dict := some (Json.obj es) } := by
      unfold node_discover_tools build_tool_catalog
      simp only [hal, hes]
    exact ⟨_, hrun, rfl⟩

/-- Witness for C8 (amended): one raising server and one server answering a
bare number are both excluded while the policy-kb server survives, and the
well-formed run completes with the blocked flag untouched. -/
theorem discovery_failures_excluded_witness :
    ((("down", Json.obj [("error", Json.str "timeout")]) :
      String × Json) ∈ tools_all
        [("down", Except.error "timeout"),
         ("mcp-policy-kb", Except.ok policyKbListToolsResp)]) ∧
    (∃ st2, node_discover_tools
        [("down", Except.error "timeout"),
         ("mcp-policy-kb", Except.ok policyKbListToolsResp)]
        { user_query := "q" } = .ok st2 ∧
      st2.blocked = ({ user_query := "q" } : AgentState).blocked) := by
  have h := discovery_failures_excluded
  refine ⟨h.1 _ "down" "timeout" (List.mem_cons_self _ _), ?_⟩
  exact h.2.2.1 _ { user_query := "q" } (by decide)

/-- C10: the deterministic ID router is a pure function of the query text
alone — two states sharing a query but holding arbitrarily different
discovered catalogs, allowlists and payloads (including none at all)
receive the identical forced plan, whatever generator completion either
run would have been offered — and a forced plan naming a capability absent
from the live catalog is rejected at the validation stage rather than
executed: the state blocks and the route ends the run before
node_call_tool; concretely, "fetch policy-001" against the live policy-kb
catalog ends blocked with zero capability invocations. -/
theorem id_router_pure_in_query_and_validated :
    (∀ content1 content2 (st1 st2 : AgentState),
      st1.user_query = st2.user_query →
      st1.blocked = false → st2.blocked = false →
      ∀ forced, deterministic_plan_from_ids st1.user_query = some forced →
        node_plan content1 st1 = (.ok { st1 with
          raw_plan := some (Json.obj
            [("forced", Json.bool true), ("plan", forced)]),
          plan := some forced }, noEffects) ∧
        node_plan content2 st2 = (.ok { st2 with
          raw_plan := some (Json.obj
            [("forced", Json.bool true), ("plan", forced)]),
          plan := some forced }, noEffects)) ∧
    (∀ (st : AgentState) plan server tool args,
      st.blocked = false →
      st.plan = some plan →
      plan.get "type" = some (Json.str "call_tool") →
      plan.get "server" = some (Json.str server) →
      plan.get "tool" = some (Json.str tool) →
      plan.get "args" = some args →
      capabilityAbsent (st.catalog_dict.getD Json.null) server tool = true →
      (node_validate_and_select st).blocked = true ∧
      route_after_validate (node_validate_and_select st) = none) ∧
    run_once policyOracles "fetch policy-001" =
      (.ok (Json.obj
        [("type", Json.str "blocked"),
         ("reason", Json.str
           "Plan validation failed: unknown tool fetch_policy_entry on server mcp-policy-kb"),
         ("plan", policyForcedPlan)]),
       { llmCalls := 0, discoverCalls := 1, invokeCalls := 0 }) := by
  refine ⟨?_, ?_, by decide⟩
  · intro content1 content2 st1 st2 hq hb1 hb2 forced hf
    have hf2 : deterministic_plan_from_ids st2.user_query = some forced := by
      rw [← hq]; exact hf
    constructor
    · simp [node_plan, hb1, hf]
    · simp [node_plan, hb2, hf2]
  · intro st plan server tool args hb hp hty hsrv htool hargs habs
    unfold capabilityAbsent at habs
    have hval : ∃ e, validate_plan plan (st.catalog_dict.getD Json.null) =
        .error e := by
      rcases hcat : (st.catalog_dict.getD Json.null).get server with _ | j
      · refine ⟨"unknown server " ++ server, ?_⟩
        unfold validate_plan
        simp only [hty, hsrv, htool, hargs, hcat]
      · cases j
        case arr tools =>
          rw [hcat] at habs
          have hfind : tools.find?
              (fun t => t.get "name" == some (Json.str tool)) = none := by
            simpa using habs
          refine ⟨"unknown tool " ++ tool ++ " on server " ++ server, ?_⟩
          unfold validate_plan
          simp only [hty, hsrv, htool, hargs, hcat, hfind]
        all_goals
          refine ⟨"unknown server " ++ server, ?_⟩
          unfold validate_plan
          simp only [hty, hsrv, htool, hargs, hcat]
    rcases hval with ⟨e, hval⟩
    constructor
    · simp [node_validate_and_select, hb, hp, hval]
    · simp [node_validate_and_select, hb, hp, hval, route_after_validate]

/-- Witness for C10: the same forced plan arises with no catalog at all
and with the live policy-kb catalog, and that plan is rejected at
validation against the live catalog. -/
theorem id_router_pure_in_query_and_validated_witness :
    (node_plan "alpha" c10StateNoCatalog =
      (.ok { c10StateNoCatalog with
        raw_plan := some (Json.obj
          [("forced", Json.bool true), ("plan", policyForcedPlan)]),
        plan := some policyForcedPlan }, noEffects) ∧
     node_plan "beta" c10StateWithCatalog =
      (.ok { c10StateWithCatalog with
        raw_plan := some (Json.obj
          [("forced", Json.bool true), ("plan", policyForcedPlan)]),
        plan := some policyForcedPlan }, noEffects)) ∧
    ((node_validate_and_select c10StatePlanned).blocked = true ∧
     route_after_validate (node_validate_and_select c10StatePlanned) = none) := by
  have h := id_router_pure_in_query_and_validated
  refine ⟨h.1 "alpha" "beta" c10StateNoCatalog c10StateWithCatalog rfl rfl rfl
      policyForcedPlan (by decide), ?_⟩
  exact h.2.1 c10StatePlanned
    policyForcedPlan "mcp-policy-kb" "fetch_policy_entry"
    (Json.obj [("policy_id", Json.str "policy-001")])
    rfl rfl (by decide) (by decide) (by decide) (by decide) (by decide)

/-- The per-item check of validate_grounded_summary accepts exactly the
items meeting the amended grounding rules. -/
theorem checkGroundedItem_ok_iff (src sec : String) (i : Nat) (item : Json) :
    checkGroundedItem src sec i item = .ok () ↔
      itemMeetsGroundingRules src item = true := by
  unfold checkGroundedItem itemMeetsGroundingRules
  cases hobj : item.isObj
  · simp
  · cases hcl : (match item.get "claim" with
      | some (Json.str s) => pyStripNonempty s
      | _ => false)
    · simp
    · rcases he : item.get "evidence" with _ | j
      · simp
      · cases j <;> simp only [Bool.true_and]
        case str s =>
          cases hs : pyStripNonempty s <;>
            cases hin : pyInStr s src <;> simp [hs, hin]
        all_goals simp

/-- The item loop accepts exactly the lists whose items all meet the
amended rules (the running index is irrelevant to acceptance). -/
theorem checkGroundedItems_ok_iff (src sec : String) (items : List Json) :
    ∀ i, checkGroundedItems src sec i items = .ok () ↔
      items.all (itemMeetsGroundingRules src) = true := by
  induction items with
  | nil => intro i; simp [checkGroundedItems]
  | cons x xs ih =>
    intro i
    unfold checkGroundedItems
    rcases hx : checkGroundedItem src sec i x with e | u
    · have hfx : itemMeetsGroundingRules src x = false := by
        cases hbx : itemMeetsGroundingRules src x
        · rfl
        · exact absurd ((checkGroundedItem_ok_iff src sec i x).2 hbx)
            (by simp [hx])
      simp [hfx]
    · cases u
      have hxt : itemMeetsGroundingRules src x = true :=
        (checkGroundedItem_ok_iff src sec i x).1 hx
      simp [hxt, ih (i + 1)]

/-- A section check accepts exactly the sections meeting the amended
rules. -/
theorem checkGroundedSection_ok_iff (summary : Json) (src sec : String) :
    checkGroundedSection summary src sec = .ok () ↔
      sectionMeetsGroundingRules summary src sec = true := by
  unfold checkGroundedSection sectionMeetsGroundingRules
  rcases hg : summary.get sec with _ | j
  · simp
  · cases j <;> simp [checkGroundedItems_ok_iff]

/-- C2 (amended): the grounding check is all-or-nothing — the parsed
summary is accepted iff no rule is violated, where the rules are: the
value is an object whose type field equals "summary", each of
bullets/risks/recommendations is a list, every item is an object whose
claim and evidence are strings that are non-empty after stripping
whitespace, and every evidence string occurs verbatim as a contiguous
substring of the source text. -/
theorem grounding_check_all_or_nothing (summary : Json) (src : String) :
    validate_grounded_summary summary src = .ok () ↔
      summaryMeetsGroundingRules summary src = true := by
  unfold validate_grounded_summary summaryMeetsGroundingRules groundingSections
  cases hobj : summary.isObj
  · simp
  · simp only [Bool.not_true, Bool.false_eq_true, if_false, Bool.true_and]
    by_cases hty : summary.get "type" = some (Json.str "summary")
    · simp only [hty, ne_eq, not_true_eq_false, if_false, beq_self_eq_true,
        Bool.true_and]
      rcases h1 : checkGroundedSection summary src "bullets" with e | u
      · have hf : sectionMeetsGroundingRules summary src "bullets" = false := by
          cases hb : sectionMeetsGroundingRules summary src "bullets"
          · rfl
          · exact absurd ((checkGroundedSection_ok_iff summary src "bullets").2 hb)
              (by simp [h1])
        simp [hf]
      · cases u
        have ht1 : sectionMeetsGroundingRules summary src "bullets" = true :=
          (checkGroundedSection_ok_iff summary src "bullets").1 h1
        rcases h2 : checkGroundedSection summary src "risks" with e | u
        · have hf : sectionMeetsGroundingRules summary src "risks" = false := by
            cases hb : sectionMeetsGroundingRules summary src "risks"
            · rfl
            · exact absurd ((checkGroundedSection_ok_iff summary src "risks").2 hb)
                (by simp [h2])
          simp [ht1, hf]
        · cases u
          have ht2 : sectionMeetsGroundingRules summary src "risks" = true :=
            (checkGroundedSection_ok_iff summary src "risks").1 h2
          simp [ht1, ht2, checkGroundedSection_ok_iff]
    · have hbeq : (summary.get "type" == some (Json.str "summary")) = false := by
        simp [hty]
      simp [hty, hbeq]

/-- C2 counterexample: a summary that satisfies every rule of the claim as
stated — its claim field " " is a non-empty string and its evidence "PII"
occurs verbatim in the source — yet validate_grounded_summary rejects it,
because the code also strips whitespace; the claimed equivalence is false
at this input. -/
theorem grounding_claim_rules_counterexample :
    summaryMeetsClaimRules c2Summary c2Source = true ∧
    validate_grounded_summary c2Summary c2Source =
      .error "bullets[0].claim must be a non-empty string." ∧
    ¬(validate_grounded_summary c2Summary c2Source = .ok () ↔
      summaryMeetsClaimRules c2Summary c2Source = true) := by
  decide

/-- C7: the blocked flag is terminal and gate rejection short-circuits the
whole pipeline: every stage after the gate leaves a blocked state untouched
(and so never un-sets the flag), the gate and discover stages never clear
an already-set flag, and a query the safety check rejects ends the run with
the blocked output and zero discovery, generator and invocation effects. -/
theorem blocked_flag_terminal_and_gate_short_circuits :
    (∀ content st, st.blocked = true →
      node_plan content st = (Except.ok st, noEffects)) ∧
    (∀ st, st.blocked = true → node_validate_and_select st = st) ∧
    (∀ raw dec st, st.blocked = true →
      node_call_tool raw dec st = (st, noEffects)) ∧
    (∀ en f st, st.blocked = true →
      node_grounded_summarize en f st = (Except.ok st, noEffects)) ∧
    (∀ check st, st.blocked = true → (node_policy_gate check st).blocked = true) ∧
    (∀ rs st st2, node_discover_tools rs st = Except.ok st2 →
      st2.blocked = st.blocked) ∧
    (∀ o q reason, o.check q = (false, reason) →
      run_once o q = (Except.ok (Json.obj
        [("type", Json.str "blocked"), ("reason", Json.str reason)]), noEffects)) := by
  refine ⟨?_, ?_, ?_, ?_, ?_, ?_, ?_⟩
  · intro content st hb; simp [node_plan, hb]
  · intro st hb; simp [node_validate_and_select, hb]
  · intro raw dec st hb; simp [node_call_tool, hb]
  · intro en f st hb; simp [node_grounded_summarize, hb]
  · intro check st hb
    unfold node_policy_gate
    by_cases h : (check st.user_query).1 <;> simp [h, hb]
  · intro rs st st2 h
    unfold node_discover_tools at h
    rcases h1 : discover_allowlist ((tools_all rs).filter
        (fun kv => kv.2.isObj && kv.2.hasKey "result")) with e | al
    · simp only [h1] at h; exact absurd h (by simp)
    · simp only [h1] at h
      rcases h2 : build_tool_catalog ((tools_all rs).filter
          (fun kv => kv.2.isObj && kv.2.hasKey "result")) with e | cat
      · simp only [h2] at h; exact absurd h (by simp)
      · simp only [h2] at h
        cases h
        rfl
  · intro o q reason h
    unfold run_once run_pipeline node_policy_gate
    simp [h, route_after_policy]

/-- Witness for C7: every conjunct instantiated at a concrete blocked state
and the deny-all oracles. -/
theorem blocked_flag_terminal_and_gate_short_circuits_witness :
    node_plan "c" blockedStateFixture = (Except.ok blockedStateFixture, noEffects) ∧
    node_validate_and_select blockedStateFixture = blockedStateFixture ∧
    node_call_tool Json.null (Except.error "e") blockedStateFixture =
      (blockedStateFixture, noEffects) ∧
    node_grounded_summarize true (fun _ => "") blockedStateFixture =
      (Except.ok blockedStateFixture, noEffects) ∧
    (node_policy_gate (fun _ => (true, "")) blockedStateFixture).blocked = true ∧
    run_once denyAllOracles "read the secrets" =
      (Except.ok (Json.obj [("type", Json.str "blocked"),
        ("reason", Json.str "matched denylist")]), noEffects) := by
  have h := blocked_flag_terminal_and_gate_short_circuits
  exact ⟨h.1 "c" blockedStateFixture rfl,
    h.2.1 blockedStateFixture rfl,
    h.2.2.1 Json.null (Except.error "e") blockedStateFixture rfl,
    h.2.2.2.1 true (fun _ => "") blockedStateFixture rfl,
    h.2.2.2.2.1 (fun _ => (true, "")) blockedStateFixture rfl,
    h.2.2.2.2.2.2 denyAllOracles "read the secrets" "matched denylist" rfl⟩

/-- Witness for C3 at a concrete final_answer plan. -/
theorem final_answer_plan_short_circuits_to_done_witness :
    route_after_plan finalAnswerStateFixture = some "validate_and_select" ∧
    node_validate_and_select finalAnswerStateFixture =
      { finalAnswerStateFixture with output := some finalAnswerPlanFixture } ∧
    (node_validate_and_select finalAnswerStateFixture).blocked = false ∧
    route_after_validate (node_validate_and_select finalAnswerStateFixture) = none :=
  final_answer_plan_short_circuits_to_done finalAnswerStateFixture
    finalAnswerPlanFixture rfl rfl rfl (by decide)

end AgenticPlatform
